import Mathlib

/-!
Shallow embedding of the conversation/message storage-and-search core of the
repository (package `cosmos_history`): the data model
(`models/conversation.py`, `models/message.py`), the history manager
(`cosmos_history_manager.py`) and the search service (`search_service.py`).

External effects are made explicit:
* the document store is a `Store` value (a list of conversation documents and
  a list of message documents) threaded through every manager operation;
* run-time nondeterminism (uuid generation, `datetime.now()`) is injected as
  explicit arguments (`msgId`, `now`, ...);
* store exceptions (query failure in `_get_next_sequence_number`,
  `create_item` / `replace_item` failures) are injected as boolean fault
  flags in a `CallCtx` record, mirroring the `try/except` structure of the
  Python code.
-/

/-! ### Searchable-text normalization (`_normalize_search_text` / `_create_searchable_text`)

Both `ChatConversation._normalize_search_text` and
`MessageContent._create_searchable_text` run the same three steps:
lower-case, replace every character outside
`[\w\s぀-ゟ゠-ヿ一-龯]` by a space, and re-join the
whitespace-separated words with single spaces.  Python's Unicode `\w` and
`\s` are modelled over the alphabet the spec names (ASCII word characters
plus the three listed CJK ranges; ASCII whitespace). -/

/-- Model of Python `\s` (whitespace class) on the modelled alphabet. -/
def pyIsSpace (c : Char) : Bool :=
  c = ' ' || c = '\t' || c = '\n' || c = '\x0d' || c = '\x0b' || c = '\x0c'

/-- Model of Python `\w` (word character class): ASCII letters, digits and
underscore. -/
def pyIsWord (c : Char) : Bool :=
  c.isAlphanum || c = '_'

/-- The three CJK ranges preserved by the regex in `_normalize_search_text`:
hiragana `぀-ゟ`, katakana `゠-ヿ`, kanji `一-龯`. -/
def isCJK (c : Char) : Bool :=
  (0x3040 ≤ c.toNat && c.toNat ≤ 0x309F) ||
  (0x30A0 ≤ c.toNat && c.toNat ≤ 0x30FF) ||
  (0x4E00 ≤ c.toNat && c.toNat ≤ 0x9FAF)

/-- A character the substitution step keeps (everything else becomes `' '`). -/
def keepChar (c : Char) : Bool :=
  pyIsWord c || pyIsSpace c || isCJK c

/-- Model of Python `str.split()` (split on whitespace runs, dropping empty
pieces), on character lists.  `acc` holds the current word, reversed. -/
def splitWordsAux : List Char → List Char → List (List Char)
  | [], acc => if acc.isEmpty then [] else [acc.reverse]
  | c :: rest, acc =>
    if pyIsSpace c then
      if acc.isEmpty then splitWordsAux rest []
      else acc.reverse :: splitWordsAux rest []
    else splitWordsAux rest (c :: acc)

/-- Model of Python `" ".join(words)` on character lists. -/
def joinSpace : List (List Char) → List Char
  | [] => []
  | [w] => w
  | w :: ws => w ++ ' ' :: joinSpace ws

/-- Model of `_normalize_search_text` / `_create_searchable_text`:
`text.lower()`, then
`re.sub(r'[^\w\s぀-ゟ゠-ヿ一-龯]', ' ', text)`,
then `' '.join(text.split())`.  `Char.toLower` models `str.lower` (the
modelled alphabet only lower-cases ASCII letters; the CJK ranges have no
case). -/
def normalizeSearchText (s : String) : String :=
  let lowered := s.data.map Char.toLower
  let replaced := lowered.map (fun c => if keepChar c then c else ' ')
  String.mk (joinSpace (splitWordsAux replaced []))

/-! ### Conversation data model (`models/conversation.py`) -/

/-- `ConversationParticipant`: `joined_at` is injected at construction,
standing for the `datetime.now().isoformat()` default of `__post_init__`. -/
structure ConversationParticipant where
  userId : String
  displayName : String
  role : String
  joinedAt : String
deriving DecidableEq

/-- `ConversationCategory`. -/
structure ConversationCategory where
  categoryId : String
  categoryName : String
  confidence : Rat
  source : String
deriving DecidableEq

/-- `ConversationMetrics` (all-zero defaults of the dataclass). -/
structure ConversationMetrics where
  messageCount : Nat := 0
  participantCount : Nat := 0
  totalTokens : Nat := 0
  avgResponseTime : Rat := 0
  conversationDuration : Rat := 0
deriving DecidableEq

/-- `ConversationTimeline`. -/
structure ConversationTimeline where
  createdAt : String
  updatedAt : String
  lastMessageAt : String
  firstMessagePreview : String := ""
  lastMessagePreview : String := ""
deriving DecidableEq

/-- `ConversationTimeline.update_message_preview`: the preview is
`content[:100] + "..."` when `len(content) > 100`, else `content`; the first
preview is only overwritten when `is_first`; `last_message_at` and
`updated_at` become `datetime.now().isoformat()` (injected as `now`). -/
def ConversationTimeline.updateMessagePreview
    (tl : ConversationTimeline) (content : String) (isFirst : Bool)
    (now : String) : ConversationTimeline :=
  let preview :=
    if content.length > 100 then String.mk (content.data.take 100) ++ "..."
    else content
  { tl with
    firstMessagePreview := if isFirst then preview else tl.firstMessagePreview
    lastMessagePreview := preview
    lastMessageAt := now
    updatedAt := now }

/-- `ChatConversation` (the conversation document). -/
structure ChatConversation where
  id : String
  tenantId : String
  conversationId : String
  title : String
  participants : List ConversationParticipant := []
  categories : List ConversationCategory := []
  tags : List String := []
  summary : String := ""
  searchableText : String := ""
  metrics : ConversationMetrics := {}
  timeline : ConversationTimeline
  status : String := "active"
  privacy : String := "private"
  archived : Bool := false
  bookmarked : Bool := false
  ttl : Option Int := none
deriving DecidableEq

/-- The concatenation built by `update_searchable_text` before normalization:
title, summary, participant display names, category names and tags, each
part truthiness-filtered and the parts joined with `" "`
(`" ".join(filter(None, text_parts))`). -/
def ChatConversation.searchSourceText (c : ChatConversation) : String :=
  let parts : List String :=
    [ if c.title = "" then "" else c.title,
      if c.summary = "" then "" else c.summary,
      String.intercalate " "
        ((c.participants.filter (fun p => p.displayName ≠ "")).map
          (fun p => p.displayName)),
      String.intercalate " "
        ((c.categories.filter (fun cat => cat.categoryName ≠ "")).map
          (fun cat => cat.categoryName)),
      String.intercalate " " (c.tags.filter (fun t => t ≠ "")) ]
  String.intercalate " " (parts.filter (fun t => t ≠ ""))

/-- `ChatConversation.update_searchable_text`. -/
def ChatConversation.updateSearchableText (c : ChatConversation) : ChatConversation :=
  { c with searchableText := normalizeSearchText c.searchSourceText }

/-- `ChatConversation.add_participant`: no-op on duplicate `user_id`,
otherwise append, refresh `participant_count` and the searchable text.
`joinedAt` stands for the `datetime.now()` default. -/
def ChatConversation.addParticipant (c : ChatConversation)
    (userId displayName role joinedAt : String) : ChatConversation :=
  if c.participants.any (fun p => p.userId == userId) then c
  else
    let participants' := c.participants ++ [⟨userId, displayName, role, joinedAt⟩]
    let c' := { c with
      participants := participants'
      metrics := { c.metrics with participantCount := participants'.length } }
    c'.updateSearchableText

/-- `ChatConversation.add_category`: no-op on duplicate `category_id`,
otherwise append and refresh the searchable text. -/
def ChatConversation.addCategory (c : ChatConversation)
    (categoryId categoryName : String) (confidence : Rat) (source : String) :
    ChatConversation :=
  if c.categories.any (fun cat => cat.categoryId == categoryId) then c
  else
    let c' := { c with
      categories := c.categories ++
        [({ categoryId := categoryId, categoryName := categoryName,
            confidence := confidence, source := source } : ConversationCategory)] }
    c'.updateSearchableText

/-- `ChatConversation.add_tag`: no-op if present, otherwise append and
refresh the searchable text. -/
def ChatConversation.addTag (c : ChatConversation) (tag : String) : ChatConversation :=
  if c.tags.contains tag then c
  else ({ c with tags := c.tags ++ [tag] }).updateSearchableText

/-- `ChatConversation.update_from_message`: refresh the timeline preview and
the searchable text (message content itself is not added to the text). -/
def ChatConversation.updateFromMessage (c : ChatConversation)
    (messageContent : String) (isFirstMessage : Bool) (now : String) :
    ChatConversation :=
  let c' := { c with
    timeline := c.timeline.updateMessagePreview messageContent isFirstMessage now }
  c'.updateSearchableText

/-- `ChatConversation.is_participant`. -/
def ChatConversation.isParticipant (c : ChatConversation) (userId : String) : Bool :=
  c.participants.any (fun p => p.userId == userId)

/-- `ChatConversation.create_new`: `conversationId` stands for the generated
`str(uuid.uuid4())[:12]`, `now` for `datetime.now().isoformat()`. -/
def ChatConversation.createNew (tenantId title creatorUserId creatorDisplayName : String)
    (initialCategory : Option String) (conversationId now : String) : ChatConversation :=
  let creator : ConversationParticipant :=
    ⟨creatorUserId,
     (if creatorDisplayName = "" then creatorUserId else creatorDisplayName),
     "user", now⟩
  let conv : ChatConversation :=
    { id := "conv_" ++ conversationId
      tenantId := tenantId
      conversationId := conversationId
      title := title
      participants := [creator]
      timeline := { createdAt := now, updatedAt := now, lastMessageAt := now } }
  let conv1 :=
    match initialCategory with
    | some cat => conv.addCategory cat cat 1 "manual"
    | none => conv
  conv1.updateSearchableText

/-! ### Message data model (`models/message.py`) -/

/-- `MessageSender`. -/
structure MessageSender where
  userId : String
  displayName : String
  role : String
deriving DecidableEq

/-- `MessageContent`; `make` bakes in the `__post_init__` defaulting of
`original_text` and `searchable_text` for a freshly constructed content. -/
structure MessageContent where
  text : String
  originalText : String
  searchableText : String
  contentType : String
  language : String
deriving DecidableEq

/-- `MessageContent(text=...)` as built in `ChatMessage.create_new`:
`original_text` defaults to `text`, `searchable_text` to
`_create_searchable_text(text)` (the same normalization as conversations). -/
def MessageContent.make (text : String) : MessageContent :=
  { text := text
    originalText := text
    searchableText := normalizeSearchText text
    contentType := "text"
    language := "ja" }

/-- `MessageMetadata` (analysis lists kept abstract as string lists). -/
structure MessageMetadata where
  mode : String := ""
  effort : String := ""
  duration : Rat := 0
  tokens : Nat := 0
  model : String := ""
  temperature : Rat := 0
  intent : String := ""
  sentiment : String := "neutral"
  urgency : String := "normal"
  topics : List String := []
  actionItems : List String := []
deriving DecidableEq

/-- `ThreadInfo`. -/
structure ThreadInfo where
  parentMessageId : Option String := none
  replyToMessageId : Option String := none
  threadDepth : Nat := 0
  hasReplies : Bool := false
deriving DecidableEq

/-- One entry of the `reactions` list: the dict
`{user_id, display_name, type, timestamp}` built by `add_reaction`. -/
structure Reaction where
  userId : String
  displayName : String
  reactionType : String
  timestamp : String
deriving DecidableEq

/-- `ChatMessage` (the message document).  Attachment descriptors are opaque
to every claim and kept as raw strings. -/
structure ChatMessage where
  id : String
  conversationId : String
  tenantId : String
  sender : MessageSender
  content : MessageContent
  timestamp : String
  sequenceNumber : Nat
  metadata : MessageMetadata := {}
  threadInfo : ThreadInfo := {}
  attachments : List String := []
  reactions : List Reaction := []
  ttl : Option Int := none
deriving DecidableEq

/-- `ChatMessage.create_new`: `msgId` stands for `f"msg_{uuid.uuid4()}"`,
`timestamp` for `datetime.now().isoformat()`; metadata arrives already
parsed (`MessageMetadata.from_dict`). -/
def ChatMessage.createNew (conversationId tenantId senderUserId senderDisplayName
    contentText senderRole : String) (sequenceNumber : Nat)
    (metadata : MessageMetadata) (msgId timestamp : String) : ChatMessage :=
  { id := msgId
    conversationId := conversationId
    tenantId := tenantId
    sender := ⟨senderUserId, senderDisplayName, senderRole⟩
    content := MessageContent.make contentText
    timestamp := timestamp
    sequenceNumber := sequenceNumber
    metadata := metadata }

/-- Replace the first reaction whose `user_id` matches (`existing_reaction.update(reaction)`
overwrites every field of the found dict, which is the entry at the first
matching position). -/
def replaceFirstReaction : List Reaction → String → Reaction → List Reaction
  | [], _, _ => []
  | r :: rs, u, nr =>
    if r.userId == u then nr :: rs else r :: replaceFirstReaction rs u nr

/-- `ChatMessage.add_reaction`: build the new reaction dict (timestamp
injected as `now`); if the user already has a reaction the first such entry
is overwritten, otherwise the new one is appended. -/
def ChatMessage.addReaction (m : ChatMessage)
    (userId reactionType displayName now : String) : ChatMessage :=
  let newReaction : Reaction := ⟨userId, displayName, reactionType, now⟩
  if m.reactions.any (fun r => r.userId == userId) then
    { m with reactions := replaceFirstReaction m.reactions userId newReaction }
  else
    { m with reactions := m.reactions ++ [newReaction] }

/-! ### History manager (`cosmos_history_manager.py`)

The two containers become a `Store` record; per-call nondeterminism and
injected store failures live in `CallCtx`.  Every operation returns its
result (or a `MgrError`, standing for the raised exception) together with
the post-state of the store. -/

/-- The two containers of the document store. -/
structure Store where
  conversations : List ChatConversation
  messages : List ChatMessage
deriving DecidableEq

/-- Manager configuration: the tenant and the configured TTL values
(`get_conversation_ttl` / `get_message_ttl`). -/
structure ManagerConfig where
  tenantId : String
  conversationTtl : Int
  messageTtl : Int

/-- Exceptions the manager raises, as a domain error type.
`conversationNotFound` is the distinct `ValueError("会話が見つかりません: ...")`
of `add_message`; the others stand for store write failures. -/
inductive MgrError where
  | conversationNotFound (conversationId : String)
  | createItemFailed
  | replaceItemFailed
deriving DecidableEq

/-- Per-call nondeterminism and injected store faults for `add_message`:
`msgId` and `now` stand for uuid / `datetime.now()`; each `...Fails` flag
makes the corresponding store call raise. -/
structure CallCtx where
  msgId : String
  now : String
  seqQueryFails : Bool := false
  createItemFails : Bool := false
  propagationFails : Bool := false

/-- `get_conversation`: point-read of item `f"conv_{conversation_id}"` in the
tenant's partition; `CosmosResourceNotFoundError` becomes `none`. -/
def getConversation (cfg : ManagerConfig) (st : Store) (conversationId : String) :
    Option ChatConversation :=
  st.conversations.find? (fun c =>
    c.id == "conv_" ++ conversationId && c.tenantId == cfg.tenantId)

/-- `update_conversation`: recompute the searchable text, then
`replace_item` the whole document by id (raises when the id is absent, or
when the injected `replaceFails` fault fires). -/
def updateConversation (st : Store) (conversation : ChatConversation)
    (replaceFails : Bool) : Except MgrError (ChatConversation × Store) :=
  let conv' := conversation.updateSearchableText
  if replaceFails then .error .replaceItemFailed
  else if st.conversations.any (fun c => c.id == conv'.id) then
    .ok (conv', { st with
      conversations := st.conversations.map (fun c =>
        if c.id == conv'.id then conv' else c) })
  else .error .replaceItemFailed

/-- `delete_conversation`: read-then-update soft delete.  Missing
conversation yields `false` with the store untouched; otherwise the status
flips to `"deleted"`, `archived` to `true`, and the document is replaced. -/
def deleteConversation (cfg : ManagerConfig) (st : Store) (conversationId : String)
    (replaceFails : Bool) : Except MgrError (Bool × Store) :=
  match getConversation cfg st conversationId with
  | none => .ok (false, st)
  | some conversation =>
    let conv' := { conversation with status := "deleted", archived := true }
    match updateConversation st conv' replaceFails with
    | .error e => .error e
    | .ok (_, st') => .ok (true, st')

/-- The `SELECT VALUE MAX(m.sequenceNumber)` result over one conversation's
partition: `None`/empty becomes `0`. -/
def maxSequenceNumber (msgs : List ChatMessage) (conversationId : String) : Nat :=
  ((msgs.filter (fun m => m.conversationId == conversationId)).map
    (fun m => m.sequenceNumber)).foldr max 0

/-- `_get_next_sequence_number`: `max + 1`, but any query exception is
caught and the default `1` returned. -/
def getNextSequenceNumber (st : Store) (conversationId : String)
    (queryFails : Bool) : Nat :=
  if queryFails then 1
  else maxSequenceNumber st.messages conversationId + 1

/-- The conversation document as mutated in memory by
`_update_conversation_from_message` before the `update_conversation` call:
message count bumped, timeline preview refreshed, the sender added as a
participant when new. -/
def propagatedConversation (conversation : ChatConversation)
    (message : ChatMessage) (isFirstMessage : Bool) (ctx : CallCtx) :
    ChatConversation :=
  let c1 := { conversation with
    metrics := { conversation.metrics with
      messageCount := conversation.metrics.messageCount + 1 } }
  let c2 := c1.updateFromMessage message.content.text isFirstMessage ctx.now
  if c2.isParticipant message.sender.userId then c2
  else c2.addParticipant message.sender.userId message.sender.displayName
    message.sender.role ctx.now

/-- `_update_conversation_from_message`: apply `propagatedConversation`,
then `update_conversation`.  Any exception in the block is caught and
logged, so a failing propagation leaves the store exactly as it was. -/
def updateConversationFromMessage (st : Store) (conversation : ChatConversation)
    (message : ChatMessage) (isFirstMessage : Bool) (ctx : CallCtx) : Store :=
  if ctx.propagationFails then st
  else
    match updateConversation st
      (propagatedConversation conversation message isFirstMessage ctx) false with
    | .ok (_, st') => st'
    | .error _ => st

/-- `add_message`: verify the conversation exists, compute the next sequence
number, build and persist the message document (with the configured TTL),
then propagate to the conversation; the result is the persisted document. -/
def addMessage (cfg : ManagerConfig) (st : Store) (ctx : CallCtx)
    (conversationId senderUserId senderDisplayName content senderRole : String)
    (metadata : MessageMetadata) : Except MgrError ChatMessage × Store :=
  match getConversation cfg st conversationId with
  | none => (.error (.conversationNotFound conversationId), st)
  | some conversation =>
    let sequenceNumber := getNextSequenceNumber st conversationId ctx.seqQueryFails
    let message := ChatMessage.createNew conversationId cfg.tenantId senderUserId
      senderDisplayName content senderRole sequenceNumber metadata ctx.msgId ctx.now
    if ctx.createItemFails then (.error .createItemFailed, st)
    else
      let stored := { message with ttl := some cfg.messageTtl }
      let st1 := { st with messages := st.messages ++ [stored] }
      let st2 := updateConversationFromMessage st1 conversation stored
        (sequenceNumber == 1) ctx
      (.ok stored, st2)

/-- The non-id inputs of one `add_message` call. -/
structure AddInput where
  senderUserId : String
  senderDisplayName : String
  content : String
  senderRole : String
  metadata : MessageMetadata := {}

/-- N sequential (non-concurrent) `add_message` calls on one conversation:
the list of returned results together with the final store. -/
def runAddMessages (cfg : ManagerConfig) (conversationId : String) :
    Store → List (CallCtx × AddInput) →
    List (Except MgrError ChatMessage) × Store
  | st, [] => ([], st)
  | st, (ctx, inp) :: rest =>
    let (r, st') := addMessage cfg st ctx conversationId inp.senderUserId
      inp.senderDisplayName inp.content inp.senderRole inp.metadata
    let (rs, st'') := runAddMessages cfg conversationId st' rest
    (r :: rs, st'')

/-! ### Search service (`search_service.py`)

`SearchQuery` is the declarative filter description; the two query builders
return the SQL text together with the named-parameter list.  Decimal
rendering of the `enumerate` index inside f-strings such as `f"@userId{i}"`
is modelled by `natToDecimal` below. -/

/-- Decimal digit expansion, most significant digit first (the digits of the
f-string rendering of a nonnegative integer). -/
def natDigits (n : Nat) : List Nat :=
  if n < 10 then [n]
  else natDigits (n / 10) ++ [n % 10]
decreasing_by
  exact Nat.div_lt_self (by omega) (by omega)

/-- Digit character of a decimal digit. -/
def charOfDigit (d : Nat) : Char :=
  Char.ofNat (48 + d)

/-- Decimal rendering of a natural number, as Python `f"{i}"` renders the
`enumerate` index. -/
def natToDecimal (n : Nat) : String :=
  String.mk ((natDigits n).map charOfDigit)

/-- One named bound parameter of a Cosmos SQL query:
a `{"name": ..., "value": ...}` dict. -/
structure SqlParam where
  name : String
  value : String
deriving DecidableEq

/-- `SearchSortField`. -/
inductive SearchSortField where
  | timestamp
  | createdAt
  | updatedAt
  | messageCount
  | relevance
  | title
deriving DecidableEq

/-- `SearchSortOrder`. -/
inductive SearchSortOrder where
  | asc
  | desc
deriving DecidableEq

/-- `DateRange`. -/
structure DateRange where
  startDate : Option String := none
  endDate : Option String := none
deriving DecidableEq

/-- Python truthiness of an optional string (`None` and `""` are falsy). -/
def optStrTruthy : Option String → Bool
  | none => false
  | some s => !(s == "")

/-- Python truthiness of an optional list (`None` and `[]` are falsy). -/
def optListTruthy : Option (List String) → Bool
  | none => false
  | some l => !l.isEmpty

/-- `DateRange.is_valid`.  `datetime.fromisoformat` comparison is modelled
by lexicographic string order (fixed-format ISO-8601 strings compare
chronologically); the unparseable-date exception branch is not modelled. -/
def DateRange.isValid (d : DateRange) : Bool :=
  if optStrTruthy d.startDate && optStrTruthy d.endDate then
    decide ((d.startDate.getD "") ≤ (d.endDate.getD ""))
  else true

/-- `SearchQuery` (all filter fields; `page_size` and the continuation token
are pagination controls passed to the store, not query text). -/
structure SearchQuery where
  keyword : Option String := none
  tenantId : Option String := none
  participantUserIds : Option (List String) := none
  participantNames : Option (List String) := none
  categoryIds : Option (List String) := none
  categoryNames : Option (List String) := none
  tags : Option (List String) := none
  dateRange : Option DateRange := none
  senderRoles : Option (List String) := none
  sortField : SearchSortField := .updatedAt
  sortOrder : SearchSortOrder := .desc
  pageSize : Nat := 20
  continuationToken : Option String := none
  includeArchived : Bool := false
  highConfidenceOnly : Bool := false
deriving DecidableEq

/-- One `OR`-joined list-filter group: for each element, the predicate is
`pre ++ ⟨parameter name⟩ ++ post` and the parameter name is
`pfx ++ ⟨decimal index⟩` from `enumerate`. -/
def listGroupCondition (pre post pfx : String) (xs : List String) : String :=
  "(" ++ String.intercalate " OR "
    (xs.enum.map (fun p => pre ++ pfx ++ natToDecimal p.1 ++ post)) ++ ")"

/-- The parameters contributed by one list-filter group. -/
def listGroupParams (pfx : String) (xs : List String) : List SqlParam :=
  xs.enum.map (fun p => ⟨pfx ++ natToDecimal p.1, p.2⟩)

/-- Whether `_build_conversations_query` enters its date-range block
(`if query.date_range and query.date_range.is_valid()`). -/
def dateRangeActive : Option DateRange → Bool
  | none => false
  | some dr => dr.isValid

/-- The conditions appended by the date-range block, over the given document
path (`c.timeline.lastMessageAt` for conversations, `m.timestamp` for
messages). -/
def dateRangeConditions (path : String) (o : Option DateRange) : List String :=
  if dateRangeActive o then
    let dr := o.getD {}
    (if optStrTruthy dr.startDate then [path ++ " >= @startDate"] else []) ++
    (if optStrTruthy dr.endDate then [path ++ " <= @endDate"] else [])
  else []

/-- The parameters appended by the date-range block. -/
def dateRangeParams (o : Option DateRange) : List SqlParam :=
  if dateRangeActive o then
    let dr := o.getD {}
    (if optStrTruthy dr.startDate then [⟨"@startDate", dr.startDate.getD ""⟩] else []) ++
    (if optStrTruthy dr.endDate then [⟨"@endDate", dr.endDate.getD ""⟩] else [])
  else []

/-- The condition list built by `_build_conversations_query`, in append
order. -/
def convConditions (q : SearchQuery) : List String :=
  (if optStrTruthy q.tenantId then ["c.tenantId = @tenantId"] else []) ++
  (if optStrTruthy q.keyword then
    ["(CONTAINS(c.title, @keyword) OR CONTAINS(c.summary, @keyword) OR CONTAINS(c.searchableText, @keyword))"]
   else []) ++
  (if optListTruthy q.participantUserIds then
    [listGroupCondition "ARRAY_CONTAINS(c.participants, \x7b\x27userId\x27: "
      "\x7d, true)" "@userId" (q.participantUserIds.getD [])]
   else []) ++
  (if optListTruthy q.participantNames then
    [listGroupCondition "ARRAY_CONTAINS(c.participants, \x7b\x27displayName\x27: "
      "\x7d, true)" "@participantName" (q.participantNames.getD [])]
   else []) ++
  (if optListTruthy q.categoryIds then
    [listGroupCondition "ARRAY_CONTAINS(c.categories, \x7b\x27categoryId\x27: "
      "\x7d, true)" "@categoryId" (q.categoryIds.getD [])]
   else []) ++
  (if optListTruthy q.categoryNames then
    [listGroupCondition "ARRAY_CONTAINS(c.categories, \x7b\x27categoryName\x27: "
      "\x7d, true)" "@categoryName" (q.categoryNames.getD [])]
   else []) ++
  (if optListTruthy q.tags then
    [listGroupCondition "ARRAY_CONTAINS(c.tags, " ")" "@tag" (q.tags.getD [])]
   else []) ++
  dateRangeConditions "c.timeline.lastMessageAt" q.dateRange ++
  (if !q.includeArchived then ["(c.archived = false OR NOT IS_DEFINED(c.archived))"] else []) ++
  (if q.highConfidenceOnly then
    ["EXISTS(SELECT VALUE cat FROM cat IN c.categories WHERE cat.confidence >= 0.8)"]
   else [])

/-- The parameter list built by `_build_conversations_query`, in append
order (the keyword value is lower-cased before binding). -/
def convParams (q : SearchQuery) : List SqlParam :=
  (if optStrTruthy q.tenantId then [⟨"@tenantId", q.tenantId.getD ""⟩] else []) ++
  (if optStrTruthy q.keyword then [⟨"@keyword", (q.keyword.getD "").toLower⟩] else []) ++
  (if optListTruthy q.participantUserIds then
    listGroupParams "@userId" (q.participantUserIds.getD []) else []) ++
  (if optListTruthy q.participantNames then
    listGroupParams "@participantName" (q.participantNames.getD []) else []) ++
  (if optListTruthy q.categoryIds then
    listGroupParams "@categoryId" (q.categoryIds.getD []) else []) ++
  (if optListTruthy q.categoryNames then
    listGroupParams "@categoryName" (q.categoryNames.getD []) else []) ++
  (if optListTruthy q.tags then
    listGroupParams "@tag" (q.tags.getD []) else []) ++
  dateRangeParams q.dateRange

/-- The `WHERE` clause: empty when no condition was appended. -/
def whereClauseOf (conditions : List String) : String :=
  if conditions.isEmpty then ""
  else "WHERE " ++ String.intercalate " AND " conditions

/-- The conversation `ORDER BY` field mapping. -/
def convSortFieldPath : SearchSortField → String
  | .createdAt => "c.timeline.createdAt"
  | .messageCount => "c.metrics.messageCount"
  | .title => "c.title"
  | _ => "c.timeline.lastMessageAt"

/-- The sort direction keyword. -/
def sortOrderKeyword : SearchSortOrder → String
  | .desc => "DESC"
  | .asc => "ASC"

/-- `_build_conversations_query`: the SQL text and the bound parameters. -/
def buildConversationsQuery (q : SearchQuery) : String × List SqlParam :=
  ("SELECT * FROM conversations c " ++ whereClauseOf (convConditions q) ++ " " ++
    "ORDER BY " ++ convSortFieldPath q.sortField ++ " " ++ sortOrderKeyword q.sortOrder,
   convParams q)

/-- The condition list built by `_build_messages_query`, in append order. -/
def msgConditions (q : SearchQuery) : List String :=
  (if optStrTruthy q.tenantId then ["m.tenantId = @tenantId"] else []) ++
  (if optStrTruthy q.keyword then ["CONTAINS(m.content.searchableText, @keyword)"] else []) ++
  (if optListTruthy q.participantUserIds then
    [listGroupCondition "m.sender.userId = " "" "@senderId" (q.participantUserIds.getD [])]
   else []) ++
  (if optListTruthy q.participantNames then
    [listGroupCondition "CONTAINS(m.sender.displayName, " ")" "@senderName"
      (q.participantNames.getD [])]
   else []) ++
  (if optListTruthy q.senderRoles then
    [listGroupCondition "m.sender.role = " "" "@role" (q.senderRoles.getD [])]
   else []) ++
  dateRangeConditions "m.timestamp" q.dateRange ++
  (if optListTruthy q.tags then
    [listGroupCondition "ARRAY_CONTAINS(m.metadata.topics, " ")" "@topic" (q.tags.getD [])]
   else [])

/-- The parameter list built by `_build_messages_query`, in append order. -/
def msgParams (q : SearchQuery) : List SqlParam :=
  (if optStrTruthy q.tenantId then [⟨"@tenantId", q.tenantId.getD ""⟩] else []) ++
  (if optStrTruthy q.keyword then [⟨"@keyword", (q.keyword.getD "").toLower⟩] else []) ++
  (if optListTruthy q.participantUserIds then
    listGroupParams "@senderId" (q.participantUserIds.getD []) else []) ++
  (if optListTruthy q.participantNames then
    listGroupParams "@senderName" (q.participantNames.getD []) else []) ++
  (if optListTruthy q.senderRoles then
    listGroupParams "@role" (q.senderRoles.getD []) else []) ++
  dateRangeParams q.dateRange ++
  (if optListTruthy q.tags then
    listGroupParams "@topic" (q.tags.getD []) else [])

/-- `_build_messages_query`: the sort field is always `m.timestamp` (the
`TIMESTAMP` branch assigns the same default). -/
def buildMessagesQuery (q : SearchQuery) : String × List SqlParam :=
  ("SELECT * FROM messages m " ++ whereClauseOf (msgConditions q) ++ " " ++
    "ORDER BY m.timestamp " ++ sortOrderKeyword q.sortOrder,
   msgParams q)

/-! ### Query shapes

The "shape" of a `SearchQuery` records which filters are populated, how many
elements each list filter has, and the sort/flag settings — everything the
builders read except the filter values themselves.  The query-safety claim
is stated as: the SQL text is a function of the shape alone (values reach
the query only through the bound-parameter list). -/

/-- The shape of a conversation query. -/
structure ConvQueryShape where
  hasTenant : Bool
  hasKeyword : Bool
  hasUserIds : Bool
  nUserIds : Nat
  hasNames : Bool
  nNames : Nat
  hasCatIds : Bool
  nCatIds : Nat
  hasCatNames : Bool
  nCatNames : Nat
  hasTags : Bool
  nTags : Nat
  dateActive : Bool
  hasStart : Bool
  hasEnd : Bool
  includeArchived : Bool
  highConfidenceOnly : Bool
  sortField : SearchSortField
  sortOrder : SearchSortOrder
deriving DecidableEq

/-- Shape extraction for `_build_conversations_query`. -/
def convShape (q : SearchQuery) : ConvQueryShape :=
  { hasTenant := optStrTruthy q.tenantId
    hasKeyword := optStrTruthy q.keyword
    hasUserIds := optListTruthy q.participantUserIds
    nUserIds := (q.participantUserIds.getD []).length
    hasNames := optListTruthy q.participantNames
    nNames := (q.participantNames.getD []).length
    hasCatIds := optListTruthy q.categoryIds
    nCatIds := (q.categoryIds.getD []).length
    hasCatNames := optListTruthy q.categoryNames
    nCatNames := (q.categoryNames.getD []).length
    hasTags := optListTruthy q.tags
    nTags := (q.tags.getD []).length
    dateActive := dateRangeActive q.dateRange
    hasStart := optStrTruthy ((q.dateRange.getD {}).startDate)
    hasEnd := optStrTruthy ((q.dateRange.getD {}).endDate)
    includeArchived := q.includeArchived
    highConfidenceOnly := q.highConfidenceOnly
    sortField := q.sortField
    sortOrder := q.sortOrder }

/-- A list-filter group's text as a function of its length only. -/
def listGroupConditionOfLen (pre post pfx : String) (n : Nat) : String :=
  "(" ++ String.intercalate " OR "
    ((List.range n).map (fun i => pre ++ pfx ++ natToDecimal i ++ post)) ++ ")"

/-- The date-range conditions as a function of the shape bits only. -/
def dateRangeConditionsOfShape (path : String) (active hasStart hasEnd : Bool) :
    List String :=
  if active then
    (if hasStart then [path ++ " >= @startDate"] else []) ++
    (if hasEnd then [path ++ " <= @endDate"] else [])
  else []

/-- The conversation condition list as a function of the shape only. -/
def convConditionsOfShape (s : ConvQueryShape) : List String :=
  (if s.hasTenant then ["c.tenantId = @tenantId"] else []) ++
  (if s.hasKeyword then
    ["(CONTAINS(c.title, @keyword) OR CONTAINS(c.summary, @keyword) OR CONTAINS(c.searchableText, @keyword))"]
   else []) ++
  (if s.hasUserIds then
    [listGroupConditionOfLen "ARRAY_CONTAINS(c.participants, \x7b\x27userId\x27: "
      "\x7d, true)" "@userId" s.nUserIds]
   else []) ++
  (if s.hasNames then
    [listGroupConditionOfLen "ARRAY_CONTAINS(c.participants, \x7b\x27displayName\x27: "
      "\x7d, true)" "@participantName" s.nNames]
   else []) ++
  (if s.hasCatIds then
    [listGroupConditionOfLen "ARRAY_CONTAINS(c.categories, \x7b\x27categoryId\x27: "
      "\x7d, true)" "@categoryId" s.nCatIds]
   else []) ++
  (if s.hasCatNames then
    [listGroupConditionOfLen "ARRAY_CONTAINS(c.categories, \x7b\x27categoryName\x27: "
      "\x7d, true)" "@categoryName" s.nCatNames]
   else []) ++
  (if s.hasTags then
    [listGroupConditionOfLen "ARRAY_CONTAINS(c.tags, " ")" "@tag" s.nTags]
   else []) ++
  dateRangeConditionsOfShape "c.timeline.lastMessageAt" s.dateActive s.hasStart s.hasEnd ++
  (if !s.includeArchived then ["(c.archived = false OR NOT IS_DEFINED(c.archived))"] else []) ++
  (if s.highConfidenceOnly then
    ["EXISTS(SELECT VALUE cat FROM cat IN c.categories WHERE cat.confidence >= 0.8)"]
   else [])

/-- The conversation SQL text as a function of the shape only. -/
def convQueryTextOfShape (s : ConvQueryShape) : String :=
  "SELECT * FROM conversations c " ++ whereClauseOf (convConditionsOfShape s) ++ " " ++
    "ORDER BY " ++ convSortFieldPath s.sortField ++ " " ++ sortOrderKeyword s.sortOrder

/-- The shape of a message query. -/
structure MsgQueryShape where
  hasTenant : Bool
  hasKeyword : Bool
  hasSenderIds : Bool
  nSenderIds : Nat
  hasSenderNames : Bool
  nSenderNames : Nat
  hasRoles : Bool
  nRoles : Nat
  dateActive : Bool
  hasStart : Bool
  hasEnd : Bool
  hasTopics : Bool
  nTopics : Nat
  sortOrder : SearchSortOrder
deriving DecidableEq

/-- Shape extraction for `_build_messages_query`. -/
def msgShape (q : SearchQuery) : MsgQueryShape :=
  { hasTenant := optStrTruthy q.tenantId
    hasKeyword := optStrTruthy q.keyword
    hasSenderIds := optListTruthy q.participantUserIds
    nSenderIds := (q.participantUserIds.getD []).length
    hasSenderNames := optListTruthy q.participantNames
    nSenderNames := (q.participantNames.getD []).length
    hasRoles := optListTruthy q.senderRoles
    nRoles := (q.senderRoles.getD []).length
    dateActive := dateRangeActive q.dateRange
    hasStart := optStrTruthy ((q.dateRange.getD {}).startDate)
    hasEnd := optStrTruthy ((q.dateRange.getD {}).endDate)
    hasTopics := optListTruthy q.tags
    nTopics := (q.tags.getD []).length
    sortOrder := q.sortOrder }

/-- The message condition list as a function of the shape only. -/
def msgConditionsOfShape (s : MsgQueryShape) : List String :=
  (if s.hasTenant then ["m.tenantId = @tenantId"] else []) ++
  (if s.hasKeyword then ["CONTAINS(m.content.searchableText, @keyword)"] else []) ++
  (if s.hasSenderIds then
    [listGroupConditionOfLen "m.sender.userId = " "" "@senderId" s.nSenderIds]
   else []) ++
  (if s.hasSenderNames then
    [listGroupConditionOfLen "CONTAINS(m.sender.displayName, " ")" "@senderName" s.nSenderNames]
   else []) ++
  (if s.hasRoles then
    [listGroupConditionOfLen "m.sender.role = " "" "@role" s.nRoles]
   else []) ++
  dateRangeConditionsOfShape "m.timestamp" s.dateActive s.hasStart s.hasEnd ++
  (if s.hasTopics then
    [listGroupConditionOfLen "ARRAY_CONTAINS(m.metadata.topics, " ")" "@topic" s.nTopics]
   else [])

/-- The message SQL text as a function of the shape only. -/
def msgQueryTextOfShape (s : MsgQueryShape) : String :=
  "SELECT * FROM messages m " ++ whereClauseOf (msgConditionsOfShape s) ++ " " ++
    "ORDER BY m.timestamp " ++ sortOrderKeyword s.sortOrder

/-! ### Result cache (`_generate_cache_key` / `_get_cached_result` /
`_cache_result` / `clear_cache` / `search_conversations`)

`self.query_cache` is a Python dict keyed by the md5 of
`f"{collection}_{query.__dict__}"`; the md5 key is modelled as the
(collection, query) pair itself, i.e. the hash is assumed collision-free.
The dict preserves insertion order, so it is modelled as an association
list where updating an existing key replaces in place and a new key is
appended.  Timestamps (`time.time()`) are injected `Nat` instants; the
store itself is an oracle function from queries to results. -/

/-- One cached entry: `{"result": ..., "timestamp": ...}`. -/
structure CacheEntry (α : Type) where
  result : α
  timestamp : Nat
deriving DecidableEq

/-- The cache key: collection name and the full query description. -/
abbrev CacheKey := String × SearchQuery

/-- The search service's mutable cache state. -/
structure SearchCache (α : Type) where
  entries : List (CacheKey × CacheEntry α)
deriving DecidableEq

/-- The cache TTL, `self.cache_ttl = 300`. -/
def cacheTtl : Nat := 300

/-- Dict lookup. -/
def cacheLookup {α : Type} (c : SearchCache α) (k : CacheKey) : Option (CacheEntry α) :=
  (c.entries.find? (fun kv => kv.1 == k)).map (fun kv => kv.2)

/-- Dict `del`. -/
def cacheDelete {α : Type} (c : SearchCache α) (k : CacheKey) : SearchCache α :=
  ⟨c.entries.eraseP (fun kv => kv.1 == k)⟩

/-- Dict assignment: replace in place when the key exists, else append. -/
def cacheInsert {α : Type} (c : SearchCache α) (k : CacheKey) (e : CacheEntry α) :
    SearchCache α :=
  if c.entries.any (fun kv => kv.1 == k) then
    ⟨c.entries.map (fun kv => if kv.1 == k then (k, e) else kv)⟩
  else ⟨c.entries ++ [(k, e)]⟩

/-- `min(self.query_cache.keys(), key=lambda k: ...timestamp)`: the first
key (in insertion order) with minimal timestamp. -/
def oldestCacheKey {α : Type} (entries : List (CacheKey × CacheEntry α)) :
    Option CacheKey :=
  (entries.foldl (fun best kv =>
    match best with
    | none => some kv
    | some b => if kv.2.timestamp < b.2.timestamp then some kv else best) none).map
    (fun kv => kv.1)

/-- `_get_cached_result`: a hit younger than the TTL is returned; an expired
entry is deleted and the call misses; a missing key is a miss. -/
def getCachedResult {α : Type} (now : Nat) (c : SearchCache α) (k : CacheKey) :
    Option α × SearchCache α :=
  match cacheLookup c k with
  | none => (none, c)
  | some e =>
    if now - e.timestamp < cacheTtl then (some e.result, c)
    else (none, cacheDelete c k)

/-- `_cache_result`: insert, then if the cache holds more than 100 entries
evict the single oldest one. -/
def cacheResult {α : Type} (now : Nat) (c : SearchCache α) (k : CacheKey) (r : α) :
    SearchCache α :=
  let c1 := cacheInsert c k ⟨r, now⟩
  if c1.entries.length > 100 then
    match oldestCacheKey c1.entries with
    | some ok => cacheDelete c1 ok
    | none => c1
  else c1

/-- `clear_cache`. -/
def clearCache {α : Type} (_c : SearchCache α) : SearchCache α := ⟨[]⟩

/-- The cache-relevant skeleton of `search_conversations`: check the cache
under the key for collection `"conversations"`; on a hit return the cached
result, on a miss query the store oracle and cache the result.  The third
component records whether the store was queried. -/
def searchConversationsCached {α : Type} (store : SearchQuery → α) (now : Nat)
    (c : SearchCache α) (q : SearchQuery) : α × SearchCache α × Bool :=
  let k : CacheKey := ("conversations", q)
  match getCachedResult now c k with
  | (some r, c1) => (r, c1, false)
  | (none, c1) =>
    let r := store q
    (r, cacheResult now c1 k r, true)

/-! ### Statement devices -/

/-- The searchable-text invariant every mutator re-establishes:
`searchableText` is the normalization of the concatenated searchable
fields. -/
def searchInvariant (c : ChatConversation) : Prop :=
  c.searchableText = normalizeSearchText c.searchSourceText

/-- The sequence number carried by an `add_message` result (`0` for an
error). -/
def resultSeq : Except MgrError ChatMessage → Nat
  | .ok m => m.sequenceNumber
  | .error _ => 0

/-- The sequence numbers of one conversation's messages, in store order. -/
def conversationSeqs (st : Store) (conversationId : String) : List Nat :=
  (st.messages.filter (fun m => m.conversationId == conversationId)).map
    (fun m => m.sequenceNumber)

/-- Apply a list of `add_reaction` calls
`(user_id, reaction_type, display_name, now)` in order. -/
def applyReactions (m : ChatMessage) (calls : List (String × String × String × String)) :
    ChatMessage :=
  calls.foldl (fun acc o => acc.addReaction o.1 o.2.1 o.2.2.1 o.2.2.2) m

/-- Decimal value of a digit list, most significant first. -/
def digitsVal (l : List Nat) : Nat :=
  l.foldl (fun a d => a * 10 + d) 0

/-- Every name in `l` extends the prefix `pfx`. -/
def prefixedBy (pfx : String) (l : List String) : Prop :=
  ∀ a ∈ l, ∃ s, a = pfx ++ s

/-- Two parameter-name prefixes neither of which is a prefix of the other
(so no two names built from them can collide). -/
def strIncomp (p q : String) : Prop :=
  ¬ (p.data <+: q.data) ∧ ¬ (q.data <+: p.data)

/-- The parameter-name pieces of `_build_conversations_query`, each tagged
with the prefix its names extend, in append order. -/
def convNamePieces (q : SearchQuery) : List (String × List String) :=
  [("@tenantId", if optStrTruthy q.tenantId then ["@tenantId"] else []),
   ("@keyword", if optStrTruthy q.keyword then ["@keyword"] else []),
   ("@userId", if optListTruthy q.participantUserIds then
     (List.range (q.participantUserIds.getD []).length).map
       (fun i => "@userId" ++ natToDecimal i) else []),
   ("@participantName", if optListTruthy q.participantNames then
     (List.range (q.participantNames.getD []).length).map
       (fun i => "@participantName" ++ natToDecimal i) else []),
   ("@categoryId", if optListTruthy q.categoryIds then
     (List.range (q.categoryIds.getD []).length).map
       (fun i => "@categoryId" ++ natToDecimal i) else []),
   ("@categoryName", if optListTruthy q.categoryNames then
     (List.range (q.categoryNames.getD []).length).map
       (fun i => "@categoryName" ++ natToDecimal i) else []),
   ("@tag", if optListTruthy q.tags then
     (List.range (q.tags.getD []).length).map
       (fun i => "@tag" ++ natToDecimal i) else []),
   ("@startDate", if dateRangeActive q.dateRange then
     (if optStrTruthy ((q.dateRange.getD {}).startDate) then ["@startDate"] else [])
     else []),
   ("@endDate", if dateRangeActive q.dateRange then
     (if optStrTruthy ((q.dateRange.getD {}).endDate) then ["@endDate"] else [])
     else [])]

/-- The parameter-name pieces of `_build_messages_query`. -/
def msgNamePieces (q : SearchQuery) : List (String × List String) :=
  [("@tenantId", if optStrTruthy q.tenantId then ["@tenantId"] else []),
   ("@keyword", if optStrTruthy q.keyword then ["@keyword"] else []),
   ("@senderId", if optListTruthy q.participantUserIds then
     (List.range (q.participantUserIds.getD []).length).map
       (fun i => "@senderId" ++ natToDecimal i) else []),
   ("@senderName", if optListTruthy q.participantNames then
     (List.range (q.participantNames.getD []).length).map
       (fun i => "@senderName" ++ natToDecimal i) else []),
   ("@role", if optListTruthy q.senderRoles then
     (List.range (q.senderRoles.getD []).length).map
       (fun i => "@role" ++ natToDecimal i) else []),
   ("@startDate", if dateRangeActive q.dateRange then
     (if optStrTruthy ((q.dateRange.getD {}).startDate) then ["@startDate"] else [])
     else []),
   ("@endDate", if dateRangeActive q.dateRange then
     (if optStrTruthy ((q.dateRange.getD {}).endDate) then ["@endDate"] else [])
     else []),
   ("@topic", if optListTruthy q.tags then
     (List.range (q.tags.getD []).length).map
       (fun i => "@topic" ++ natToDecimal i) else [])]

/-! ## Normalization lemmas -/

theorem splitWordsAux_sound : ∀ (l acc : List Char),
    (∀ c ∈ acc, pyIsSpace c = false) →
    ∀ w ∈ splitWordsAux l acc, ∀ ch ∈ w, (ch ∈ l ∨ ch ∈ acc) ∧ pyIsSpace ch = false := by
  intro l
  induction l with
  | nil =>
    intro acc hacc w hw ch hch
    unfold splitWordsAux at hw
    by_cases he : acc.isEmpty
    · simp [he] at hw
    · simp [he] at hw
      subst hw
      simp only [List.mem_reverse] at hch
      exact ⟨Or.inr hch, hacc ch hch⟩
  | cons c rest ih =>
    intro acc hacc w hw ch hch
    unfold splitWordsAux at hw
    by_cases hs : pyIsSpace c
    · by_cases he : acc.isEmpty
      · simp [hs, he] at hw
        have h2 := ih [] (by simp) w hw ch hch
        refine ⟨Or.inl (List.mem_cons_of_mem _ ?_), h2.2⟩
        exact h2.1.resolve_right (by simp)
      · simp [hs, he] at hw
        rcases hw with hw | hw
        · subst hw
          simp only [List.mem_reverse] at hch
          exact ⟨Or.inr hch, hacc ch hch⟩
        · have h2 := ih [] (by simp) w hw ch hch
          refine ⟨Or.inl (List.mem_cons_of_mem _ ?_), h2.2⟩
          exact h2.1.resolve_right (by simp)
    · simp [hs] at hw
      have hacc' : ∀ x ∈ c :: acc, pyIsSpace x = false := by
        intro x hx
        rcases List.mem_cons.1 hx with hx | hx
        · subst hx; exact Bool.eq_false_iff.2 hs
        · exact hacc x hx
      have h2 := ih (c :: acc) hacc' w hw ch hch
      rcases h2.1 with hm | hm
      · exact ⟨Or.inl (List.mem_cons_of_mem _ hm), h2.2⟩
      · rcases List.mem_cons.1 hm with hm | hm
        · subst hm; exact ⟨Or.inl (List.mem_cons_self _ _), h2.2⟩
        · exact ⟨Or.inr hm, h2.2⟩

theorem joinSpace_chars : ∀ (ws : List (List Char)) (ch : Char),
    ch ∈ joinSpace ws → (∃ w ∈ ws, ch ∈ w) ∨ ch = ' ' := by
  intro ws
  induction ws with
  | nil => intro ch h; simp [joinSpace] at h
  | cons w ws ih =>
    intro ch h
    cases ws with
    | nil =>
      exact Or.inl ⟨w, by simp, by simpa [joinSpace] using h⟩
    | cons v vs =>
      rw [show joinSpace (w :: v :: vs) = w ++ ' ' :: joinSpace (v :: vs) from rfl] at h
      rcases List.mem_append.1 h with h1 | h2
      · exact Or.inl ⟨w, by simp, h1⟩
      · rcases List.mem_cons.1 h2 with h3 | h4
        · exact Or.inr h3
        · rcases ih ch h4 with ⟨u, hu, hcu⟩ | hsp
          · exact Or.inl ⟨u, List.mem_cons_of_mem _ hu, hcu⟩
          · exact Or.inr hsp

theorem normalizeSearchText_chars (s : String) (ch : Char)
    (h : ch ∈ (normalizeSearchText s).data) :
    pyIsWord ch = true ∨ isCJK ch = true ∨ ch = ' ' := by
  unfold normalizeSearchText at h
  have h' : ch ∈ joinSpace (splitWordsAux ((s.data.map Char.toLower).map
      (fun c => if keepChar c then c else ' ')) []) := h
  rcases joinSpace_chars _ ch h' with ⟨w, hw, hcw⟩ | hsp
  · have h2 := splitWordsAux_sound _ [] (by simp) w hw ch hcw
    rcases h2 with ⟨hmem | hmem, hns⟩
    · rcases List.mem_map.1 hmem with ⟨c0, _, hc0⟩
      by_cases hk : keepChar c0
      · rw [if_pos hk] at hc0
        subst hc0
        unfold keepChar at hk
        simp only [Bool.or_eq_true] at hk
        rcases hk with (hk | hk) | hk
        · exact Or.inl hk
        · rw [hk] at hns; cases hns
        · exact Or.inr (Or.inl hk)
      · rw [if_neg hk] at hc0
        exact Or.inr (Or.inr hc0.symm)
    · cases hmem
  · exact Or.inr (Or.inr hsp)

theorem updateSearchableText_invariant (c : ChatConversation) :
    searchInvariant c.updateSearchableText := rfl

/-- C2: after any call to `add_tag`, `add_category`, `add_participant` or
`update_from_message` returns, `searchableText` equals the lower-cased
normalization of the concatenation of title, summary, participant display
names, category names and tags, and every character of it is an ASCII word
character, a preserved CJK character, or a space — never punctuation
outside the preserved alphabet ranges.  The invariant is stated for every
conversation that already satisfies it (every conversation built by the
model does: each constructor and mutator ends in
`update_searchable_text`). -/
theorem c2_searchable_text_freshness :
    ∀ c : ChatConversation, searchInvariant c →
    (∀ tag, searchInvariant (c.addTag tag)) ∧
    (∀ catId catName conf src, searchInvariant (c.addCategory catId catName conf src)) ∧
    (∀ uid dn role now, searchInvariant (c.addParticipant uid dn role now)) ∧
    (∀ content isFirst now, searchInvariant (c.updateFromMessage content isFirst now)) ∧
    (∀ ch ∈ c.searchableText.data, pyIsWord ch = true ∨ isCJK ch = true ∨ ch = ' ') := by
  intro c hc
  refine ⟨?_, ?_, ?_, ?_, ?_⟩
  · intro tag
    unfold ChatConversation.addTag
    split
    · exact hc
    · exact updateSearchableText_invariant _
  · intro catId catName conf src
    unfold ChatConversation.addCategory
    split
    · exact hc
    · exact updateSearchableText_invariant _
  · intro uid dn role now
    unfold ChatConversation.addParticipant
    split
    · exact hc
    · exact updateSearchableText_invariant _
  · intro content isFirst now
    exact updateSearchableText_invariant _
  · intro ch hch
    rw [hc] at hch
    exact normalizeSearchText_chars _ ch hch

/-- Witness for C2 at a concrete conversation built by `create_new`. -/
theorem c2_searchable_text_freshness_witness :
    searchInvariant ((ChatConversation.createNew "tenant1" "Math Help" "u1" ""
      none "abc123" "2025-01-01T00:00:00").addTag "algebra") :=
  (c2_searchable_text_freshness
    (ChatConversation.createNew "tenant1" "Math Help" "u1" ""
      none "abc123" "2025-01-01T00:00:00") rfl).1 "algebra"

/-! ## Reaction lemmas -/

theorem replaceFirstReaction_cons_pos (r : Reaction) (rs : List Reaction)
    (u : String) (nr : Reaction) (hr : (r.userId == u) = true) :
    replaceFirstReaction (r :: rs) u nr = nr :: rs := by
  simp [replaceFirstReaction, hr]

theorem replaceFirstReaction_cons_neg (r : Reaction) (rs : List Reaction)
    (u : String) (nr : Reaction) (hr : ¬ (r.userId == u) = true) :
    replaceFirstReaction (r :: rs) u nr = r :: replaceFirstReaction rs u nr := by
  simp [replaceFirstReaction, hr]

theorem filter_replaceFirst (l : List Reaction) (u : String) (nr : Reaction)
    (hnr : nr.userId = u) (r0 : Reaction)
    (h : l.filter (fun r => r.userId == u) = [r0]) :
    (replaceFirstReaction l u nr).filter (fun r => r.userId == u) = [nr] := by
  induction l with
  | nil => simp at h
  | cons r rs ih =>
    by_cases hr : (r.userId == u) = true
    · rw [replaceFirstReaction_cons_pos r rs u nr hr]
      rw [@List.filter_cons_of_pos _ (fun r => r.userId == u) r rs hr] at h
      have hrs : rs.filter (fun r => r.userId == u) = [] := by
        cases hinj : rs.filter (fun r => r.userId == u) with
        | nil => rfl
        | cons a as => rw [hinj] at h; simp at h
      rw [@List.filter_cons_of_pos _ (fun r => r.userId == u) nr rs (by simp [hnr]), hrs]
    · rw [replaceFirstReaction_cons_neg r rs u nr hr]
      rw [@List.filter_cons_of_neg _ (fun r => r.userId == u) r rs hr] at h
      rw [@List.filter_cons_of_neg _ (fun r => r.userId == u) r
        (replaceFirstReaction rs u nr) hr]
      exact ih h

theorem filter_replaceFirst_other (l : List Reaction) (v : String) (nr : Reaction)
    (hnr : nr.userId = v) (u : String) (hvu : v ≠ u) :
    (replaceFirstReaction l v nr).filter (fun r => r.userId == u) =
      l.filter (fun r => r.userId == u) := by
  induction l with
  | nil => rfl
  | cons r rs ih =>
    by_cases hr : (r.userId == v) = true
    · rw [replaceFirstReaction_cons_pos r rs v nr hr]
      have hru : (r.userId == u) = false := by
        have h1 : r.userId = v := by simpa using hr
        simp [h1, hvu]
      have hnru : (nr.userId == u) = false := by simp [hnr, hvu]
      rw [@List.filter_cons_of_neg _ (fun r => r.userId == u) nr rs (by simp [hnru]),
        @List.filter_cons_of_neg _ (fun r => r.userId == u) r rs (by simp [hru])]
    · rw [replaceFirstReaction_cons_neg r rs v nr hr]
      by_cases hru : (r.userId == u) = true
      · rw [@List.filter_cons_of_pos _ (fun r => r.userId == u) r
          (replaceFirstReaction rs v nr) hru,
          @List.filter_cons_of_pos _ (fun r => r.userId == u) r rs hru, ih]
      · rw [@List.filter_cons_of_neg _ (fun r => r.userId == u) r
          (replaceFirstReaction rs v nr) hru,
          @List.filter_cons_of_neg _ (fun r => r.userId == u) r rs hru, ih]

theorem filter_addReaction_self (m : ChatMessage) (u t dn now : String)
    (h : m.reactions.countP (fun r => r.userId == u) ≤ 1) :
    (m.addReaction u t dn now).reactions.filter (fun r => r.userId == u) =
      [⟨u, dn, t, now⟩] := by
  unfold ChatMessage.addReaction
  by_cases hany : m.reactions.any (fun r => r.userId == u)
  · rw [if_pos hany]
    rw [List.countP_eq_length_filter] at h
    have hne : m.reactions.filter (fun r => r.userId == u) ≠ [] := by
      rcases List.any_eq_true.1 hany with ⟨x, hx, hpx⟩
      have hmem : x ∈ m.reactions.filter (fun r => r.userId == u) :=
        List.mem_filter.2 ⟨hx, hpx⟩
      exact fun hnil => by rw [hnil] at hmem; cases hmem
    have hlen : (m.reactions.filter (fun r => r.userId == u)).length = 1 := by
      have := List.length_pos.2 hne
      omega
    rcases List.length_eq_one.1 hlen with ⟨r0, hr0⟩
    exact filter_replaceFirst _ u _ rfl r0 hr0
  · rw [if_neg hany]
    have hnil : m.reactions.filter (fun r => r.userId == u) = [] := by
      rw [List.filter_eq_nil_iff]
      intro x hx
      simp only [List.any_eq_true, not_exists, not_and] at hany
      simpa using hany x hx
    rw [List.filter_append, hnil]
    simp

theorem filter_addReaction_other (m : ChatMessage) (v t dn now u : String)
    (hvu : v ≠ u) :
    (m.addReaction v t dn now).reactions.filter (fun r => r.userId == u) =
      m.reactions.filter (fun r => r.userId == u) := by
  unfold ChatMessage.addReaction
  by_cases hany : m.reactions.any (fun r => r.userId == v)
  · rw [if_pos hany]
    exact filter_replaceFirst_other _ v _ rfl u hvu
  · rw [if_neg hany]
    rw [List.filter_append]
    rw [show List.filter (fun r => r.userId == u)
        [(⟨v, dn, t, now⟩ : Reaction)] = [] from by simp [hvu]]
    simp

theorem applyReactions_filter (others : List (String × String × String × String)) :
    ∀ (m : ChatMessage) (u : String), (∀ o ∈ others, o.1 ≠ u) →
    (applyReactions m others).reactions.filter (fun r => r.userId == u) =
      m.reactions.filter (fun r => r.userId == u) := by
  induction others with
  | nil => intro m u _; rfl
  | cons o os ih =>
    intro m u hothers
    have h1 : applyReactions m (o :: os) =
        applyReactions (m.addReaction o.1 o.2.1 o.2.2.1 o.2.2.2) os := rfl
    rw [h1, ih _ u (fun x hx => hothers x (List.mem_cons_of_mem _ hx)),
      filter_addReaction_other _ _ _ _ _ _ (hothers o (List.mem_cons_self _ _))]

/-- C7: after two `add_reaction` calls from one user id — with any reaction
types, and with arbitrary reactions by other users before and between the
two calls — the message holds exactly one reaction for that user, carrying
the second call's type (and display name / timestamp).  The count
hypothesis (at most one prior reaction for that user) holds for every
message whose reactions were only ever added through `add_reaction`. -/
theorem c7_reaction_idempotence (m : ChatMessage) (u t1 dn1 now1 t2 dn2 now2 : String)
    (others : List (String × String × String × String))
    (hcount : m.reactions.countP (fun r => r.userId == u) ≤ 1)
    (hothers : ∀ o ∈ others, o.1 ≠ u) :
    ((applyReactions (m.addReaction u t1 dn1 now1) others).addReaction u t2 dn2 now2).reactions.filter
      (fun r => r.userId == u) = [⟨u, dn2, t2, now2⟩] := by
  have h1 := filter_addReaction_self m u t1 dn1 now1 hcount
  have h2 : (applyReactions (m.addReaction u t1 dn1 now1) others).reactions.filter
      (fun r => r.userId == u) = [⟨u, dn1, t1, now1⟩] := by
    rw [applyReactions_filter others _ u hothers, h1]
  have hc2 : (applyReactions (m.addReaction u t1 dn1 now1) others).reactions.countP
      (fun r => r.userId == u) ≤ 1 := by
    rw [List.countP_eq_length_filter, h2]
    simp
  exact filter_addReaction_self _ u t2 dn2 now2 hc2

/-- Witness for C7: a fresh message, a reaction by another user in between. -/
theorem c7_reaction_idempotence_witness :
    ((applyReactions ((ChatMessage.createNew "c1" "t1" "u1" "User One" "hello"
        "user" 1 {} "msg1" "ts0").addReaction "u1" "like" "User One" "ts1")
        [("v2", "dislike", "User Two", "ts2")]).addReaction "u1" "helpful"
        "User One" "ts3").reactions.filter (fun r => r.userId == "u1") =
      [⟨"u1", "User One", "helpful", "ts3"⟩] :=
  c7_reaction_idempotence (ChatMessage.createNew "c1" "t1" "u1" "User One"
    "hello" "user" 1 {} "msg1" "ts0") "u1" "like" "User One" "ts1" "helpful"
    "User One" "ts3" [("v2", "dislike", "User Two", "ts2")]
    (by decide) (by decide)

/-! ## Timeline preview (C9) -/

/-- C9 counterexample: for a 101-character content, the stored last-message
preview is `content[:100] + "..."`, 103 characters long — more than the 100
characters the claim allows. -/
theorem c9_preview_counterexample :
    ¬ ((({ createdAt := "t0", updatedAt := "t0", lastMessageAt := "t0" } :
        ConversationTimeline).updateMessagePreview
        (String.mk (List.replicate 101 'a')) true "t1").lastMessagePreview.length ≤ 100) := by
  decide

/-- C9 (amended): the preview stored by `update_message_preview` is the
content itself when it has at most 100 characters, and otherwise the first
100 characters followed by `"..."` — so its length never exceeds 103 (and is
exactly 103 whenever the content is longer than 100); the first-message
preview is only overwritten when the update is flagged as the first
message, and then equals the last-message preview. -/
theorem c9_preview_truncation (tl : ConversationTimeline) (content : String)
    (isFirst : Bool) (now : String) :
    ((tl.updateMessagePreview content isFirst now).lastMessagePreview =
      (if content.length > 100 then String.mk (content.data.take 100) ++ "..."
       else content)) ∧
    (tl.updateMessagePreview content isFirst now).lastMessagePreview.length ≤ 103 ∧
    (content.length ≤ 100 →
      (tl.updateMessagePreview content isFirst now).lastMessagePreview = content) ∧
    (content.length > 100 →
      (tl.updateMessagePreview content isFirst now).lastMessagePreview.length = 103) ∧
    (isFirst = false →
      (tl.updateMessagePreview content isFirst now).firstMessagePreview =
        tl.firstMessagePreview) ∧
    (isFirst = true →
      (tl.updateMessagePreview content isFirst now).firstMessagePreview =
        (tl.updateMessagePreview content isFirst now).lastMessagePreview) := by
  have hlen : ∀ h : content.length > 100,
      (String.mk (content.data.take 100) ++ "...").length = 103 := by
    intro h
    have h1 : (String.mk (content.data.take 100) ++ "...").length =
        (content.data.take 100).length + 3 := by
      rw [String.length_append]
      rfl
    have h2 : (content.data.take 100).length = 100 := by
      rw [List.length_take]
      have : content.length = content.data.length := rfl
      omega
    omega
  refine ⟨?_, ?_, ?_, ?_, ?_, ?_⟩
  · simp [ConversationTimeline.updateMessagePreview]
  · by_cases h : content.length > 100
    · simp only [ConversationTimeline.updateMessagePreview, if_pos h]
      rw [hlen h]
    · simp only [ConversationTimeline.updateMessagePreview, if_neg h]
      omega
  · intro h
    simp [ConversationTimeline.updateMessagePreview]
    omega
  · intro h
    simp only [ConversationTimeline.updateMessagePreview, if_pos h]
    exact hlen h
  · intro h
    simp [ConversationTimeline.updateMessagePreview, h]
  · intro h
    simp [ConversationTimeline.updateMessagePreview, h]

/-- Witness for C9 (amended) at a 101-character content: the stored preview
has exactly 103 characters. -/
theorem c9_preview_truncation_witness :
    ((({ createdAt := "t0", updatedAt := "t0", lastMessageAt := "t0" } :
        ConversationTimeline).updateMessagePreview
        (String.mk (List.replicate 101 'a')) true "t1").lastMessagePreview.length = 103) :=
  (c9_preview_truncation
    { createdAt := "t0", updatedAt := "t0", lastMessageAt := "t0" }
    (String.mk (List.replicate 101 'a')) true "t1").2.2.2.1 (by decide)

/-! ## Manager error-handling claims (C5, C10, C4) -/

/-- C5: `add_message` on a conversation id that does not exist fails with
the distinct conversation-not-found error, and the store is returned
exactly as it was — no message document is constructed or written. -/
theorem c5_add_message_conversation_not_found (cfg : ManagerConfig) (st : Store)
    (ctx : CallCtx)
    (conversationId senderUserId senderDisplayName content senderRole : String)
    (metadata : MessageMetadata)
    (h : getConversation cfg st conversationId = none) :
    addMessage cfg st ctx conversationId senderUserId senderDisplayName content
      senderRole metadata =
      (.error (.conversationNotFound conversationId), st) := by
  unfold addMessage
  rw [h]

/-- Witness for C5: an empty store holds no conversation. -/
theorem c5_add_message_conversation_not_found_witness :
    addMessage ⟨"tenant1", -1, -1⟩ ⟨[], []⟩ { msgId := "m1", now := "n1" }
      "missing" "u1" "User" "hi" "user" {} =
      (.error (.conversationNotFound "missing"), ⟨[], []⟩) :=
  c5_add_message_conversation_not_found ⟨"tenant1", -1, -1⟩ ⟨[], []⟩
    { msgId := "m1", now := "n1" } "missing" "u1" "User" "hi" "user" {} rfl

/-- C10: when the max-sequence-number query raises,
`_get_next_sequence_number` swallows the exception and returns `1`, so
`add_message` assigns sequence number `1` to the new message even though the
conversation already contains messages. -/
theorem c10_seq_query_failure_defaults_to_one (cfg : ManagerConfig) (st : Store)
    (ctx : CallCtx)
    (conversationId senderUserId senderDisplayName content senderRole : String)
    (metadata : MessageMetadata) (conv : ChatConversation)
    (hconv : getConversation cfg st conversationId = some conv)
    (hfail : ctx.seqQueryFails = true)
    (hcreate : ctx.createItemFails = false)
    (_hmsgs : st.messages.filter (fun m => m.conversationId == conversationId) ≠ []) :
    getNextSequenceNumber st conversationId ctx.seqQueryFails = 1 ∧
    ∃ m, (addMessage cfg st ctx conversationId senderUserId senderDisplayName
        content senderRole metadata).1 = .ok m ∧ m.sequenceNumber = 1 := by
  constructor
  · rw [hfail]; rfl
  · simp only [addMessage, hconv, hcreate, Bool.false_eq_true, if_false]
    refine ⟨_, rfl, ?_⟩
    simp [ChatMessage.createNew, getNextSequenceNumber, hfail]

/-- Witness for C10: a store whose conversation `c1` already holds a message
with sequence number 7; with the query fault injected the next message still
gets sequence number 1. -/
theorem c10_seq_query_failure_defaults_to_one_witness :
    getNextSequenceNumber
      ⟨[ChatConversation.createNew "tenant1" "T" "u1" "" none "c1" "n0"],
        [ChatMessage.createNew "c1" "tenant1" "u1" "U" "old" "user" 7 {} "m0" "n0"]⟩
      "c1" true = 1 ∧
    ∃ m, (addMessage ⟨"tenant1", -1, -1⟩
        ⟨[ChatConversation.createNew "tenant1" "T" "u1" "" none "c1" "n0"],
          [ChatMessage.createNew "c1" "tenant1" "u1" "U" "old" "user" 7 {} "m0" "n0"]⟩
        { msgId := "m1", now := "n1", seqQueryFails := true }
        "c1" "u1" "U" "hi" "user" {}).1 = .ok m ∧ m.sequenceNumber = 1 :=
  c10_seq_query_failure_defaults_to_one ⟨"tenant1", -1, -1⟩
    ⟨[ChatConversation.createNew "tenant1" "T" "u1" "" none "c1" "n0"],
      [ChatMessage.createNew "c1" "tenant1" "u1" "U" "old" "user" 7 {} "m0" "n0"]⟩
    { msgId := "m1", now := "n1", seqQueryFails := true }
    "c1" "u1" "U" "hi" "user" {}
    (ChatConversation.createNew "tenant1" "T" "u1" "" none "c1" "n0")
    (by rfl) rfl rfl (by decide)

/-- C4: when the message write succeeds and the conversation-propagation
step fails, the failure is swallowed: `add_message` still returns the
persisted message, the message container holds it, and the conversations
container is untouched. -/
theorem c4_propagation_failure_swallowed (cfg : ManagerConfig) (st : Store)
    (ctx : CallCtx)
    (conversationId senderUserId senderDisplayName content senderRole : String)
    (metadata : MessageMetadata) (conv : ChatConversation)
    (hconv : getConversation cfg st conversationId = some conv)
    (hcreate : ctx.createItemFails = false)
    (hprop : ctx.propagationFails = true) :
    ∃ m, (addMessage cfg st ctx conversationId senderUserId senderDisplayName
        content senderRole metadata).1 = .ok m ∧
      (addMessage cfg st ctx conversationId senderUserId senderDisplayName
        content senderRole metadata).2.messages = st.messages ++ [m] ∧
      (addMessage cfg st ctx conversationId senderUserId senderDisplayName
        content senderRole metadata).2.conversations = st.conversations := by
  simp only [addMessage, hconv, hcreate, Bool.false_eq_true, if_false]
  simp only [updateConversationFromMessage, hprop, if_true]
  exact ⟨_, rfl, rfl, trivial⟩

/-- Witness for C4 at a one-conversation store with the propagation fault
injected. -/
theorem c4_propagation_failure_swallowed_witness :
    ∃ m, (addMessage ⟨"tenant1", -1, -1⟩
        ⟨[ChatConversation.createNew "tenant1" "T" "u1" "" none "c1" "n0"], []⟩
        { msgId := "m1", now := "n1", propagationFails := true }
        "c1" "u1" "U" "hi" "user" {}).1 = .ok m ∧
      (addMessage ⟨"tenant1", -1, -1⟩
        ⟨[ChatConversation.createNew "tenant1" "T" "u1" "" none "c1" "n0"], []⟩
        { msgId := "m1", now := "n1", propagationFails := true }
        "c1" "u1" "U" "hi" "user" {}).2.messages = [] ++ [m] ∧
      (addMessage ⟨"tenant1", -1, -1⟩
        ⟨[ChatConversation.createNew "tenant1" "T" "u1" "" none "c1" "n0"], []⟩
        { msgId := "m1", now := "n1", propagationFails := true }
        "c1" "u1" "U" "hi" "user" {}).2.conversations =
        [ChatConversation.createNew "tenant1" "T" "u1" "" none "c1" "n0"] :=
  c4_propagation_failure_swallowed ⟨"tenant1", -1, -1⟩
    ⟨[ChatConversation.createNew "tenant1" "T" "u1" "" none "c1" "n0"], []⟩
    { msgId := "m1", now := "n1", propagationFails := true }
    "c1" "u1" "U" "hi" "user" {}
    (ChatConversation.createNew "tenant1" "T" "u1" "" none "c1" "n0")
    (by rfl) rfl rfl

/-! ## Soft delete (C6) -/

theorem find?_map_replace {A : Type} (p : A → Bool) (f : A → A) (y : A)
    (hfy : ∀ x, p x = true → f x = y)
    (hfn : ∀ x, p x = false → (f x = x ∨ f x = y))
    (hy : p y = true) :
    ∀ l : List A, (l.find? p).isSome → (l.map f).find? p = some y := by
  intro l
  induction l with
  | nil => intro h; simp at h
  | cons x xs ih =>
    intro h
    by_cases hp : p x = true
    · rw [List.map_cons, hfy x hp]
      exact List.find?_cons_of_pos _ hy
    · have hpf : p x = false := by simpa using hp
      rcases hfn x hpf with hfx | hfx
      · rw [List.map_cons, hfx, List.find?_cons_of_neg _ (by simp [hpf])]
        apply ih
        rw [List.find?_cons_of_neg _ (by simp [hpf])] at h
        exact h
      · rw [List.map_cons, hfx]
        exact List.find?_cons_of_pos _ hy

/-- C6: `delete_conversation` returns `false` and leaves the store untouched
when the conversation does not exist; when it exists, it returns `true` and
the document stays retrievable by `get_conversation` with status
`"deleted"` and `archived = true`. -/
theorem c6_soft_delete (cfg : ManagerConfig) (st : Store) (conversationId : String) :
    (getConversation cfg st conversationId = none →
      deleteConversation cfg st conversationId false = .ok (false, st)) ∧
    (∀ conv, getConversation cfg st conversationId = some conv →
      ∃ st' c', deleteConversation cfg st conversationId false = .ok (true, st') ∧
        getConversation cfg st' conversationId = some c' ∧
        c'.status = "deleted" ∧ c'.archived = true) := by
  constructor
  · intro h
    unfold deleteConversation
    rw [h]
  · intro conv hconv
    have hconv' : st.conversations.find? (fun c =>
        c.id == "conv_" ++ conversationId && c.tenantId == cfg.tenantId) =
        some conv := hconv
    have hpred : (conv.id == "conv_" ++ conversationId &&
        conv.tenantId == cfg.tenantId) = true :=
      @List.find?_some _ (fun c => c.id == "conv_" ++ conversationId &&
        c.tenantId == cfg.tenantId) conv st.conversations hconv'
    have hsplit : (conv.id == "conv_" ++ conversationId) = true ∧
        (conv.tenantId == cfg.tenantId) = true := by
      simpa [Bool.and_eq_true] using hpred
    have hid : conv.id = "conv_" ++ conversationId := beq_iff_eq.1 hsplit.1
    have htev : conv.tenantId = cfg.tenantId := beq_iff_eq.1 hsplit.2
    have hidkeep :
        ({ conv with status := "deleted", archived := true } :
          ChatConversation).updateSearchableText.id = conv.id := rfl
    have hany : st.conversations.any (fun c =>
        c.id == ({ conv with status := "deleted", archived := true } :
          ChatConversation).updateSearchableText.id) = true := by
      refine List.any_eq_true.2 ⟨conv, List.mem_of_find?_eq_some hconv', ?_⟩
      rw [hidkeep]
      simp
    have hupd : updateConversation st
        ({ conv with status := "deleted", archived := true }) false =
        .ok (({ conv with status := "deleted", archived := true } :
            ChatConversation).updateSearchableText,
          { st with conversations := st.conversations.map (fun c =>
            if c.id == ({ conv with status := "deleted", archived := true } :
              ChatConversation).updateSearchableText.id
            then ({ conv with status := "deleted", archived := true } :
              ChatConversation).updateSearchableText else c) }) := by
      unfold updateConversation
      rw [if_neg (by simp), if_pos hany]
    have hdel : deleteConversation cfg st conversationId false =
        .ok (true, { st with conversations := st.conversations.map (fun c =>
          if c.id == ({ conv with status := "deleted", archived := true } :
            ChatConversation).updateSearchableText.id
          then ({ conv with status := "deleted", archived := true } :
            ChatConversation).updateSearchableText else c) }) := by
      unfold deleteConversation
      simp only [hconv]
      rw [hupd]
    refine ⟨_, ({ conv with status := "deleted", archived := true } :
      ChatConversation).updateSearchableText, hdel, ?_, rfl, rfl⟩
    unfold getConversation
    apply find?_map_replace
    · intro x hx
      have hxsplit : (x.id == "conv_" ++ conversationId) = true ∧
          (x.tenantId == cfg.tenantId) = true := by
        simpa [Bool.and_eq_true] using hx
      have hxid : x.id = "conv_" ++ conversationId := beq_iff_eq.1 hxsplit.1
      rw [if_pos (by rw [hidkeep, hid, hxid]; simp)]
    · intro x _
      by_cases hxe : (x.id == ({ conv with status := "deleted", archived := true } :
          ChatConversation).updateSearchableText.id) = true
      · right; rw [if_pos hxe]
      · left; rw [if_neg hxe]
    · rw [show ({ conv with status := "deleted", archived := true } :
          ChatConversation).updateSearchableText.tenantId = conv.tenantId from rfl,
        hidkeep, hid, htev]
      simp
    · rw [hconv']; rfl

/-- Witness for C6: both branches at concrete stores. -/
theorem c6_soft_delete_witness :
    deleteConversation ⟨"tenant1", -1, -1⟩ ⟨[], []⟩ "missing" false = .ok (false, ⟨[], []⟩) ∧
    ∃ st' c', deleteConversation ⟨"tenant1", -1, -1⟩
        ⟨[ChatConversation.createNew "tenant1" "T" "u1" "" none "c1" "n0"], []⟩
        "c1" false = .ok (true, st') ∧
      getConversation ⟨"tenant1", -1, -1⟩ st' "c1" = some c' ∧
      c'.status = "deleted" ∧ c'.archived = true :=
  ⟨(c6_soft_delete ⟨"tenant1", -1, -1⟩ ⟨[], []⟩ "missing").1 rfl,
   (c6_soft_delete ⟨"tenant1", -1, -1⟩
      ⟨[ChatConversation.createNew "tenant1" "T" "u1" "" none "c1" "n0"], []⟩ "c1").2
      (ChatConversation.createNew "tenant1" "T" "u1" "" none "c1" "n0") (by rfl)⟩

/-! ## Sequencing (C1) -/

theorem foldr_max_range' : ∀ (k a : Nat),
    (List.range' a k).foldr max 0 = if k = 0 then 0 else a + k - 1 := by
  intro k
  induction k with
  | zero => intro a; rfl
  | succ n ih =>
    intro a
    rw [List.range'_succ]
    simp only [List.foldr_cons, ih]
    by_cases hn : n = 0
    · subst hn; simp
    · rw [if_neg hn, if_neg (by omega)]
      omega

theorem foldr_max_range'_one (k : Nat) : (List.range' 1 k).foldr max 0 = k := by
  rw [foldr_max_range']
  by_cases hk : k = 0
  · subst hk; rfl
  · rw [if_neg hk]; omega

theorem updateConversation_ok_shape (st : Store) (c : ChatConversation) (b : Bool)
    (r : ChatConversation) (st' : Store)
    (h : updateConversation st c b = .ok (r, st')) :
    r = c.updateSearchableText ∧
    st' = { st with conversations := st.conversations.map (fun x =>
      if x.id == c.updateSearchableText.id then c.updateSearchableText else x) } := by
  unfold updateConversation at h
  dsimp only at h
  split at h
  · cases h
  · split at h
    · simp only [Except.ok.injEq, Prod.mk.injEq] at h
      exact ⟨h.1.symm, h.2.symm⟩
    · cases h

theorem updateConversationFromMessage_messages (st : Store)
    (conversation : ChatConversation) (message : ChatMessage)
    (isFirstMessage : Bool) (ctx : CallCtx) :
    (updateConversationFromMessage st conversation message isFirstMessage ctx).messages =
      st.messages := by
  unfold updateConversationFromMessage
  split
  · rfl
  · split
    · rename_i r st' h
      rw [(updateConversation_ok_shape _ _ _ _ _ h).2]
    · rfl

theorem find?_isSome_map_replace {A : Type} (p : A → Bool) (f : A → A)
    (hpf : ∀ x, p x = true → p (f x) = true) (l : List A)
    (h : (l.find? p).isSome) : ((l.map f).find? p).isSome := by
  rw [List.find?_isSome] at h ⊢
  obtain ⟨x, hx, hpx⟩ := h
  exact ⟨f x, List.mem_map_of_mem f hx, hpf x hpx⟩

theorem addParticipant_id_tenant (c : ChatConversation) (u d r j : String) :
    (c.addParticipant u d r j).id = c.id ∧
    (c.addParticipant u d r j).tenantId = c.tenantId := by
  unfold ChatConversation.addParticipant
  split
  · exact ⟨rfl, rfl⟩
  · exact ⟨rfl, rfl⟩

theorem updateFromMessage_id_tenant (c : ChatConversation) (mc : String) (b : Bool)
    (now : String) :
    (c.updateFromMessage mc b now).id = c.id ∧
    (c.updateFromMessage mc b now).tenantId = c.tenantId :=
  ⟨rfl, rfl⟩

theorem propagatedConversation_id_tenant (conversation : ChatConversation)
    (message : ChatMessage) (isFirstMessage : Bool) (ctx : CallCtx) :
    (propagatedConversation conversation message isFirstMessage ctx).id =
      conversation.id ∧
    (propagatedConversation conversation message isFirstMessage ctx).tenantId =
      conversation.tenantId := by
  unfold propagatedConversation
  dsimp only
  split
  · exact ⟨rfl, rfl⟩
  · exact ⟨(addParticipant_id_tenant _ _ _ _ _).1, (addParticipant_id_tenant _ _ _ _ _).2⟩

theorem updateConversationFromMessage_isSome (cfg : ManagerConfig) (st : Store)
    (conversation : ChatConversation) (message : ChatMessage)
    (isFirstMessage : Bool) (ctx : CallCtx) (conversationId : String)
    (hpred : (conversation.id == "conv_" ++ conversationId &&
      conversation.tenantId == cfg.tenantId) = true)
    (hsome : (getConversation cfg st conversationId).isSome) :
    (getConversation cfg
      (updateConversationFromMessage st conversation message isFirstMessage ctx)
      conversationId).isSome := by
  unfold updateConversationFromMessage
  split
  · exact hsome
  · split
    · rename_i r st' h
      rw [(updateConversation_ok_shape _ _ _ _ _ h).2]
      unfold getConversation at hsome ⊢
      apply find?_isSome_map_replace _ _ _ _ hsome
      intro x hx
      split
      · have h1 : (propagatedConversation conversation message isFirstMessage
            ctx).updateSearchableText.id = conversation.id :=
          (propagatedConversation_id_tenant conversation message isFirstMessage ctx).1
        have h2 : (propagatedConversation conversation message isFirstMessage
            ctx).updateSearchableText.tenantId = conversation.tenantId :=
          (propagatedConversation_id_tenant conversation message isFirstMessage ctx).2
        rw [h1, h2]
        exact hpred
      · exact hx
    · exact hsome

theorem addMessage_seq_step (cfg : ManagerConfig) (st : Store) (ctx : CallCtx)
    (conversationId senderUserId senderDisplayName content senderRole : String)
    (metadata : MessageMetadata) (k : Nat)
    (hconv : (getConversation cfg st conversationId).isSome)
    (hseqs : conversationSeqs st conversationId = List.range' 1 k)
    (hsq : ctx.seqQueryFails = false)
    (hci : ctx.createItemFails = false) :
    ∃ m st', addMessage cfg st ctx conversationId senderUserId senderDisplayName
        content senderRole metadata = (.ok m, st') ∧
      m.sequenceNumber = k + 1 ∧
      conversationSeqs st' conversationId = List.range' 1 (k + 1) ∧
      (getConversation cfg st' conversationId).isSome := by
  obtain ⟨conv, hcv⟩ := Option.isSome_iff_exists.1 hconv
  have hseqnum : getNextSequenceNumber st conversationId ctx.seqQueryFails = k + 1 := by
    rw [hsq]
    unfold getNextSequenceNumber
    rw [if_neg (by simp)]
    have hms : maxSequenceNumber st.messages conversationId =
        (conversationSeqs st conversationId).foldr max 0 := rfl
    rw [hms, hseqs, foldr_max_range'_one]
  simp only [addMessage, hcv, hci, Bool.false_eq_true, if_false]
  refine ⟨_, _, rfl, hseqnum, ?_, ?_⟩
  · unfold conversationSeqs
    rw [updateConversationFromMessage_messages]
    have hbase : ((({ st with messages := st.messages ++
        [{ ChatMessage.createNew conversationId cfg.tenantId senderUserId
            senderDisplayName content senderRole
            (getNextSequenceNumber st conversationId ctx.seqQueryFails) metadata
            ctx.msgId ctx.now with ttl := some cfg.messageTtl }] } : Store).messages.filter
        (fun m => m.conversationId == conversationId)).map (fun m => m.sequenceNumber)) =
        conversationSeqs st conversationId ++
          [getNextSequenceNumber st conversationId ctx.seqQueryFails] := by
      show ((st.messages ++ _).filter _).map _ = _
      rw [List.filter_append, List.map_append]
      unfold conversationSeqs
      congr 1
      simp [ChatMessage.createNew]
    rw [hbase, hseqs, hseqnum, List.range'_concat]
    simp [Nat.add_comm]
  · apply updateConversationFromMessage_isSome
    · have hcv' : st.conversations.find? (fun c =>
          c.id == "conv_" ++ conversationId && c.tenantId == cfg.tenantId) =
          some conv := hcv
      exact @List.find?_some _ (fun c => c.id == "conv_" ++ conversationId &&
        c.tenantId == cfg.tenantId) conv st.conversations hcv'
    · exact hconv


theorem runAddMessages_spec (cfg : ManagerConfig) (conversationId : String) :
    ∀ (calls : List (CallCtx × AddInput)) (st : Store) (k : Nat),
    (getConversation cfg st conversationId).isSome →
    conversationSeqs st conversationId = List.range' 1 k →
    (∀ p ∈ calls, p.1.seqQueryFails = false ∧ p.1.createItemFails = false) →
    (runAddMessages cfg conversationId st calls).1.map resultSeq =
      List.range' (k + 1) calls.length ∧
    (∀ r ∈ (runAddMessages cfg conversationId st calls).1, ∃ m, r = .ok m) ∧
    conversationSeqs (runAddMessages cfg conversationId st calls).2 conversationId =
      List.range' 1 (k + calls.length) := by
  intro calls
  induction calls with
  | nil =>
    intro st k _ hseqs _
    refine ⟨rfl, ?_, ?_⟩
    · intro r hr
      exact absurd hr (by simp [runAddMessages])
    · simpa using hseqs
  | cons call rest ih =>
    obtain ⟨ctx, inp⟩ := call
    intro st k hconv hseqs hflags
    obtain ⟨m, st', haddm, hseq, hseqs', hconv'⟩ :=
      addMessage_seq_step cfg st ctx conversationId inp.senderUserId
        inp.senderDisplayName inp.content inp.senderRole inp.metadata k
        hconv hseqs (hflags (ctx, inp) (List.mem_cons_self _ _)).1
        (hflags (ctx, inp) (List.mem_cons_self _ _)).2
    have hrest := ih st' (k + 1) hconv' hseqs'
      (fun p hp => hflags p (List.mem_cons_of_mem _ hp))
    have hrun : runAddMessages cfg conversationId st ((ctx, inp) :: rest) =
        ((.ok m) :: (runAddMessages cfg conversationId st' rest).1,
          (runAddMessages cfg conversationId st' rest).2) := by
      simp only [runAddMessages, haddm]
    rw [hrun]
    refine ⟨?_, ?_, ?_⟩
    · simp only [List.map_cons, List.length_cons]
      rw [hrest.1]
      have hres : resultSeq (.ok m) = k + 1 := hseq
      rw [hres, List.range'_succ]
    · intro r hr
      rcases List.mem_cons.1 hr with hr | hr
      · exact ⟨m, hr⟩
      · exact hrest.2.1 r hr
    · rw [hrest.2.2]
      congr 1
      simp only [List.length_cons]
      omega

/-- C1: starting from a store whose conversation exists and holds no
messages, N sequential (non-concurrent) `add_message` calls — with no
injected sequence-query/write faults, but with propagation faults allowed —
all succeed, the returned messages carry sequence numbers `1..N` in call
order, and the conversation's stored messages carry pairwise distinct
sequence numbers. -/
theorem c1_sequencing (cfg : ManagerConfig) (conversationId : String)
    (st0 : Store) (calls : List (CallCtx × AddInput))
    (hconv : (getConversation cfg st0 conversationId).isSome)
    (hempty : conversationSeqs st0 conversationId = [])
    (hflags : ∀ p ∈ calls, p.1.seqQueryFails = false ∧ p.1.createItemFails = false) :
    (runAddMessages cfg conversationId st0 calls).1.map resultSeq =
      List.range' 1 calls.length ∧
    (∀ r ∈ (runAddMessages cfg conversationId st0 calls).1, ∃ m, r = .ok m) ∧
    conversationSeqs (runAddMessages cfg conversationId st0 calls).2 conversationId =
      List.range' 1 calls.length ∧
    (conversationSeqs (runAddMessages cfg conversationId st0 calls).2
      conversationId).Nodup := by
  have h := runAddMessages_spec cfg conversationId calls st0 0 hconv
    (by simpa using hempty) hflags
  refine ⟨by simpa using h.1, h.2.1, by simpa using h.2.2, ?_⟩
  rw [show conversationSeqs (runAddMessages cfg conversationId st0 calls).2
      conversationId = List.range' 1 calls.length from by simpa using h.2.2]
  exact List.nodup_range' _ _

/-- Witness for C1: two sequential calls on a fresh conversation get
sequence numbers 1 and 2. -/
theorem c1_sequencing_witness :
    (runAddMessages ⟨"tenant1", -1, -1⟩ "c1"
      ⟨[ChatConversation.createNew "tenant1" "Math Help" "u1" "" none "c1" "n0"], []⟩
      [({ msgId := "m1", now := "n1" }, ⟨"u1", "User", "What is 2+2?", "user", {}⟩),
       ({ msgId := "m2", now := "n2", propagationFails := true },
         ⟨"assistant", "Bot", "4", "assistant", {}⟩)]).1.map resultSeq =
      List.range' 1 2 ∧
    (∀ r ∈ (runAddMessages ⟨"tenant1", -1, -1⟩ "c1"
      ⟨[ChatConversation.createNew "tenant1" "Math Help" "u1" "" none "c1" "n0"], []⟩
      [({ msgId := "m1", now := "n1" }, ⟨"u1", "User", "What is 2+2?", "user", {}⟩),
       ({ msgId := "m2", now := "n2", propagationFails := true },
         ⟨"assistant", "Bot", "4", "assistant", {}⟩)]).1, ∃ m, r = .ok m) ∧
    conversationSeqs (runAddMessages ⟨"tenant1", -1, -1⟩ "c1"
      ⟨[ChatConversation.createNew "tenant1" "Math Help" "u1" "" none "c1" "n0"], []⟩
      [({ msgId := "m1", now := "n1" }, ⟨"u1", "User", "What is 2+2?", "user", {}⟩),
       ({ msgId := "m2", now := "n2", propagationFails := true },
         ⟨"assistant", "Bot", "4", "assistant", {}⟩)]).2 "c1" =
      List.range' 1 2 ∧
    (conversationSeqs (runAddMessages ⟨"tenant1", -1, -1⟩ "c1"
      ⟨[ChatConversation.createNew "tenant1" "Math Help" "u1" "" none "c1" "n0"], []⟩
      [({ msgId := "m1", now := "n1" }, ⟨"u1", "User", "What is 2+2?", "user", {}⟩),
       ({ msgId := "m2", now := "n2", propagationFails := true },
         ⟨"assistant", "Bot", "4", "assistant", {}⟩)]).2 "c1").Nodup :=
  c1_sequencing ⟨"tenant1", -1, -1⟩ "c1"
    ⟨[ChatConversation.createNew "tenant1" "Math Help" "u1" "" none "c1" "n0"], []⟩
    [({ msgId := "m1", now := "n1" }, ⟨"u1", "User", "What is 2+2?", "user", {}⟩),
     ({ msgId := "m2", now := "n2", propagationFails := true },
       ⟨"assistant", "Bot", "4", "assistant", {}⟩)]
    (by rfl) rfl (by decide)

/-! ## Decimal rendering (C3) -/

theorem digitsVal_append (l : List Nat) (d : Nat) :
    digitsVal (l ++ [d]) = digitsVal l * 10 + d := by
  simp [digitsVal, List.foldl_append]

theorem natDigits_val (n : Nat) : digitsVal (natDigits n) = n := by
  induction n using Nat.strong_induction_on with
  | _ n ih =>
    rw [natDigits]
    split
    · simp [digitsVal]
    · rename_i h
      rw [digitsVal_append, ih (n / 10) (Nat.div_lt_self (by omega) (by omega))]
      omega

theorem natDigits_lt10 (n : Nat) : ∀ d ∈ natDigits n, d < 10 := by
  induction n using Nat.strong_induction_on with
  | _ n ih =>
    rw [natDigits]
    split
    · rename_i h
      intro d hd
      simp only [List.mem_singleton] at hd
      omega
    · rename_i h
      intro d hd
      rcases List.mem_append.1 hd with hd | hd
      · exact ih (n / 10) (Nat.div_lt_self (by omega) (by omega)) d hd
      · simp only [List.mem_singleton] at hd
        subst hd
        exact Nat.mod_lt _ (by omega)

theorem natDigits_injective : Function.Injective natDigits := by
  intro a b h
  have h2 := congrArg digitsVal h
  rwa [natDigits_val, natDigits_val] at h2

theorem charOfDigit_inj :
    ∀ a < 10, ∀ b < 10, charOfDigit a = charOfDigit b → a = b := by decide

theorem map_charOfDigit_inj : ∀ (l1 l2 : List Nat), (∀ d ∈ l1, d < 10) →
    (∀ d ∈ l2, d < 10) → l1.map charOfDigit = l2.map charOfDigit → l1 = l2 := by
  intro l1
  induction l1 with
  | nil =>
    intro l2 _ _ h
    cases l2 with
    | nil => rfl
    | cons b bs => simp at h
  | cons a as ih =>
    intro l2 h1 h2 h
    cases l2 with
    | nil => simp at h
    | cons b bs =>
      simp only [List.map_cons, List.cons.injEq] at h
      have ha := charOfDigit_inj a (h1 a (List.mem_cons_self _ _)) b
        (h2 b (List.mem_cons_self _ _)) h.1
      rw [ha, ih bs (fun d hd => h1 d (List.mem_cons_of_mem _ hd))
        (fun d hd => h2 d (List.mem_cons_of_mem _ hd)) h.2]

theorem natToDecimal_injective : Function.Injective natToDecimal := by
  intro a b h
  have h2 : (natDigits a).map charOfDigit = (natDigits b).map charOfDigit := by
    simpa using congrArg String.data h
  exact natDigits_injective
    (map_charOfDigit_inj _ _ (natDigits_lt10 a) (natDigits_lt10 b) h2)

theorem str_append_left_cancel (p a b : String) (h : p ++ a = p ++ b) : a = b := by
  have h2 := congrArg String.data h
  rw [String.data_append, String.data_append] at h2
  have h3 := List.append_cancel_left h2
  cases a
  cases b
  exact congrArg String.mk (by simpa using h3)

theorem prefixed_ne (p q : String) (hp : ¬ (p.data <+: q.data))
    (hq : ¬ (q.data <+: p.data)) : ∀ x y : String, p ++ x ≠ q ++ y := by
  intro x y h
  have hd := congrArg String.data h
  rw [String.data_append, String.data_append] at hd
  have h1 : p.data <+: (q.data ++ y.data) := ⟨x.data, hd⟩
  have h2 : q.data <+: (q.data ++ y.data) := List.prefix_append _ _
  rcases List.prefix_or_prefix_of_prefix h1 h2 with h3 | h3
  · exact hp h3
  · exact hq h3

/-! ## Parameter-name lemmas (C3) -/

theorem listGroupParams_names (pfx : String) (xs : List String) :
    (listGroupParams pfx xs).map (fun p => p.name) =
      (List.range xs.length).map (fun i => pfx ++ natToDecimal i) := by
  unfold listGroupParams
  rw [List.map_map]
  rw [show ((fun p : SqlParam => p.name) ∘
      (fun p : Nat × String => (⟨pfx ++ natToDecimal p.1, p.2⟩ : SqlParam))) =
      ((fun i => pfx ++ natToDecimal i) ∘ Prod.fst) from rfl]
  rw [← List.map_map, List.enum_map_fst]

theorem prefixed_names_nodup (pfx : String) (n : Nat) :
    ((List.range n).map (fun i => pfx ++ natToDecimal i)).Nodup :=
  (List.nodup_range n).map (fun _ _ hab =>
    natToDecimal_injective (str_append_left_cancel pfx _ _ hab))

theorem mem_ite_nil {α : Type} {c : Prop} [Decidable c] {l : List α} {a : α}
    (h : a ∈ (if c then l else [])) : a ∈ l := by
  split at h
  · exact h
  · cases h

theorem prefixedBy_self_ite (c : Prop) [Decidable c] (s : String) :
    prefixedBy s (if c then [s] else []) := by
  intro a ha
  have h := mem_ite_nil ha
  simp only [List.mem_singleton] at h
  exact ⟨"", by simp [h]⟩

theorem prefixedBy_group_ite (c : Prop) [Decidable c] (pfx : String) (n : Nat) :
    prefixedBy pfx (if c then (List.range n).map (fun i => pfx ++ natToDecimal i)
      else []) := by
  intro a ha
  rcases List.mem_map.1 (mem_ite_nil ha) with ⟨i, _, hi⟩
  exact ⟨_, hi.symm⟩

theorem nodup_ite_singleton {α : Type} (c : Prop) [Decidable c] (x : α) :
    (if c then [x] else ([] : List α)).Nodup := by
  split <;> simp

theorem nodup_group_ite (c : Prop) [Decidable c] (pfx : String) (n : Nat) :
    (if c then (List.range n).map (fun i => pfx ++ natToDecimal i)
      else []).Nodup := by
  split
  · exact prefixed_names_nodup pfx n
  · simp

theorem ite_append_split {α : Type} (c : Prop) [Decidable c] (a b : List α) :
    (if c then a ++ b else []) = (if c then a else []) ++ (if c then b else []) := by
  split <;> simp

theorem nodup_join_prefixed : ∀ (pieces : List (String × List String)),
    (∀ pp ∈ pieces, prefixedBy pp.1 pp.2) →
    (∀ pp ∈ pieces, pp.2.Nodup) →
    pieces.Pairwise (fun a b => strIncomp a.1 b.1) →
    ((pieces.map (fun pp => pp.2)).flatten).Nodup := by
  intro pieces
  induction pieces with
  | nil => intro _ _ _; simp
  | cons pp ps ih =>
    intro hshape hnodup hinc
    simp only [List.map_cons, List.flatten_cons]
    refine List.Nodup.append (hnodup pp (List.mem_cons_self _ _))
      (ih (fun x hx => hshape x (List.mem_cons_of_mem _ hx))
          (fun x hx => hnodup x (List.mem_cons_of_mem _ hx))
          (List.pairwise_cons.1 hinc).2) ?_
    intro a ha hb
    rcases List.mem_flatten.1 hb with ⟨l, hl, hal⟩
    rcases List.mem_map.1 hl with ⟨qq, hqq, rfl⟩
    have hinc' := (List.pairwise_cons.1 hinc).1 qq hqq
    obtain ⟨s1, rfl⟩ := hshape pp (List.mem_cons_self _ _) a ha
    obtain ⟨s2, heq⟩ := hshape qq (List.mem_cons_of_mem _ hqq) _ hal
    exact prefixed_ne pp.1 qq.1 hinc'.1 hinc'.2 s1 s2 heq

theorem prefixedBy_self_ite2 (c c' : Prop) [Decidable c] [Decidable c']
    (s : String) :
    prefixedBy s (if c then (if c' then [s] else []) else []) := by
  intro a ha
  have h := mem_ite_nil (mem_ite_nil ha)
  simp only [List.mem_singleton] at h
  exact ⟨"", by simp [h]⟩

theorem nodup_ite_singleton2 {α : Type} (c c' : Prop) [Decidable c] [Decidable c']
    (x : α) :
    (if c then (if c' then [x] else []) else ([] : List α)).Nodup := by
  split
  · exact nodup_ite_singleton c' x
  · simp

theorem convParams_names_eq (q : SearchQuery) :
    (convParams q).map (fun p => p.name) =
      ((convNamePieces q).map (fun pp => pp.2)).flatten := by
  simp only [convParams, dateRangeParams, convNamePieces, List.map_append,
    apply_ite (List.map (fun p : SqlParam => p.name)), listGroupParams_names,
    List.map_cons, List.map_nil, ite_append_split, List.flatten_cons,
    List.flatten_nil, List.append_assoc, List.append_nil]

theorem msgParams_names_eq (q : SearchQuery) :
    (msgParams q).map (fun p => p.name) =
      ((msgNamePieces q).map (fun pp => pp.2)).flatten := by
  simp only [msgParams, dateRangeParams, msgNamePieces, List.map_append,
    apply_ite (List.map (fun p : SqlParam => p.name)), listGroupParams_names,
    List.map_cons, List.map_nil, ite_append_split, List.flatten_cons,
    List.flatten_nil, List.append_assoc, List.append_nil]

theorem convParams_names_nodup (q : SearchQuery) :
    ((convParams q).map (fun p => p.name)).Nodup := by
  rw [convParams_names_eq]
  apply nodup_join_prefixed
  · intro pp hpp
    fin_cases hpp <;>
      first
        | exact prefixedBy_self_ite _ _
        | exact prefixedBy_group_ite _ _ _
        | exact prefixedBy_self_ite2 _ _ _
  · intro pp hpp
    fin_cases hpp <;>
      first
        | exact nodup_ite_singleton _ _
        | exact nodup_group_ite _ _ _
        | exact nodup_ite_singleton2 _ _ _
  · unfold convNamePieces
    refine List.Pairwise.cons ?_ (List.Pairwise.cons ?_ (List.Pairwise.cons ?_
      (List.Pairwise.cons ?_ (List.Pairwise.cons ?_ (List.Pairwise.cons ?_
      (List.Pairwise.cons ?_ (List.Pairwise.cons ?_ (List.Pairwise.cons ?_
      List.Pairwise.nil)))))))) <;>
      (intro b hb; fin_cases hb <;> (constructor <;> (dsimp only; decide)))

theorem msgParams_names_nodup (q : SearchQuery) :
    ((msgParams q).map (fun p => p.name)).Nodup := by
  rw [msgParams_names_eq]
  apply nodup_join_prefixed
  · intro pp hpp
    fin_cases hpp <;>
      first
        | exact prefixedBy_self_ite _ _
        | exact prefixedBy_group_ite _ _ _
        | exact prefixedBy_self_ite2 _ _ _
  · intro pp hpp
    fin_cases hpp <;>
      first
        | exact nodup_ite_singleton _ _
        | exact nodup_group_ite _ _ _
        | exact nodup_ite_singleton2 _ _ _
  · unfold msgNamePieces
    refine List.Pairwise.cons ?_ (List.Pairwise.cons ?_ (List.Pairwise.cons ?_
      (List.Pairwise.cons ?_ (List.Pairwise.cons ?_ (List.Pairwise.cons ?_
      (List.Pairwise.cons ?_ (List.Pairwise.cons ?_
      List.Pairwise.nil))))))) <;>
      (intro b hb; fin_cases hb <;> (constructor <;> (dsimp only; decide)))

/-! ## Query text depends only on the shape (C3) -/

theorem listGroupCondition_ofLen (pre post pfx : String) (xs : List String) :
    listGroupCondition pre post pfx xs =
      listGroupConditionOfLen pre post pfx xs.length := by
  unfold listGroupCondition listGroupConditionOfLen
  rw [show (fun p : Nat × String => pre ++ pfx ++ natToDecimal p.1 ++ post) =
    ((fun i => pre ++ pfx ++ natToDecimal i ++ post) ∘ Prod.fst) from rfl,
    ← List.map_map, List.enum_map_fst]

theorem dateRangeConditions_ofShape (path : String) (o : Option DateRange) :
    dateRangeConditions path o = dateRangeConditionsOfShape path
      (dateRangeActive o) (optStrTruthy ((o.getD {}).startDate))
      (optStrTruthy ((o.getD {}).endDate)) := rfl

theorem convConditions_ofShape (q : SearchQuery) :
    convConditions q = convConditionsOfShape (convShape q) := by
  unfold convConditions convConditionsOfShape convShape
  simp only [listGroupCondition_ofLen, dateRangeConditions_ofShape]

theorem msgConditions_ofShape (q : SearchQuery) :
    msgConditions q = msgConditionsOfShape (msgShape q) := by
  unfold msgConditions msgConditionsOfShape msgShape
  simp only [listGroupCondition_ofLen, dateRangeConditions_ofShape]

theorem convText_ofShape (q : SearchQuery) :
    (buildConversationsQuery q).1 = convQueryTextOfShape (convShape q) := by
  unfold buildConversationsQuery convQueryTextOfShape
  rw [convConditions_ofShape]
  rfl

theorem msgText_ofShape (q : SearchQuery) :
    (buildMessagesQuery q).1 = msgQueryTextOfShape (msgShape q) := by
  unfold buildMessagesQuery msgQueryTextOfShape
  rw [msgConditions_ofShape]
  rfl

/-! ## Each list element gets its own parameter (C3) -/

theorem listGroupParams_mem (pfx : String) (xs : List String) (i : Nat)
    (h : i < xs.length) :
    (⟨pfx ++ natToDecimal i, xs[i]⟩ : SqlParam) ∈ listGroupParams pfx xs := by
  unfold listGroupParams
  refine List.mem_map.2 ⟨(i, xs[i]), ?_, rfl⟩
  have h' : i < xs.enum.length := by simpa using h
  have hm := xs.enum.getElem_mem h'
  rwa [List.getElem_enum] at hm

theorem optListTruthy_of_lt (o : Option (List String)) (i : Nat)
    (h : i < (o.getD []).length) : optListTruthy o = true := by
  cases o with
  | none => simp at h
  | some l =>
    simp only [Option.getD_some] at h
    simp only [optListTruthy, Bool.not_eq_true']
    rw [List.isEmpty_eq_false_iff_exists_mem]
    exact ⟨l[i], l.getElem_mem h⟩

/-- C3: query safety of the two builders.  (i)/(ii) The SQL text is a
function of the query's *shape* alone (which filters are populated, list
lengths, sort and flags) — no filter value ever reaches the text, whatever
characters it contains; so (iii)/(iv) two queries of equal shape compile to
identical text however their filter values differ.  (v)/(vi) The bound
parameter names are pairwise distinct.  (vii)–(x) Each element of a
list-valued filter (participant ids, category ids, tags, sender roles)
is bound under its own indexed parameter name carrying exactly that
element's value. -/
theorem c3_query_safety :
    (∀ q : SearchQuery,
      (buildConversationsQuery q).1 = convQueryTextOfShape (convShape q)) ∧
    (∀ q : SearchQuery,
      (buildMessagesQuery q).1 = msgQueryTextOfShape (msgShape q)) ∧
    (∀ q q' : SearchQuery, convShape q = convShape q' →
      (buildConversationsQuery q).1 = (buildConversationsQuery q').1) ∧
    (∀ q q' : SearchQuery, msgShape q = msgShape q' →
      (buildMessagesQuery q).1 = (buildMessagesQuery q').1) ∧
    (∀ q : SearchQuery,
      ((buildConversationsQuery q).2.map (fun p => p.name)).Nodup) ∧
    (∀ q : SearchQuery,
      ((buildMessagesQuery q).2.map (fun p => p.name)).Nodup) ∧
    (∀ (q : SearchQuery) (i : Nat) (h : i < (q.participantUserIds.getD []).length),
      (⟨"@userId" ++ natToDecimal i, (q.participantUserIds.getD [])[i]⟩ : SqlParam) ∈
        (buildConversationsQuery q).2) ∧
    (∀ (q : SearchQuery) (i : Nat) (h : i < (q.categoryIds.getD []).length),
      (⟨"@categoryId" ++ natToDecimal i, (q.categoryIds.getD [])[i]⟩ : SqlParam) ∈
        (buildConversationsQuery q).2) ∧
    (∀ (q : SearchQuery) (i : Nat) (h : i < (q.tags.getD []).length),
      (⟨"@tag" ++ natToDecimal i, (q.tags.getD [])[i]⟩ : SqlParam) ∈
        (buildConversationsQuery q).2) ∧
    (∀ (q : SearchQuery) (i : Nat) (h : i < (q.senderRoles.getD []).length),
      (⟨"@role" ++ natToDecimal i, (q.senderRoles.getD [])[i]⟩ : SqlParam) ∈
        (buildMessagesQuery q).2) := by
  refine ⟨convText_ofShape, msgText_ofShape, ?_, ?_, ?_, ?_, ?_, ?_, ?_, ?_⟩
  · intro q q' h
    rw [convText_ofShape, convText_ofShape, h]
  · intro q q' h
    rw [msgText_ofShape, msgText_ofShape, h]
  · intro q
    exact convParams_names_nodup q
  · intro q
    exact msgParams_names_nodup q
  · intro q i h
    have ht := optListTruthy_of_lt q.participantUserIds i h
    have hmem := listGroupParams_mem "@userId" (q.participantUserIds.getD []) i h
    show _ ∈ convParams q
    unfold convParams
    refine List.mem_append_left _ (List.mem_append_left _ (List.mem_append_left _
      (List.mem_append_left _ (List.mem_append_left _ (List.mem_append_right _ ?_)))))
    rw [if_pos ht]
    exact hmem
  · intro q i h
    have ht := optListTruthy_of_lt q.categoryIds i h
    have hmem := listGroupParams_mem "@categoryId" (q.categoryIds.getD []) i h
    show _ ∈ convParams q
    unfold convParams
    refine List.mem_append_left _ (List.mem_append_left _ (List.mem_append_left _
      (List.mem_append_right _ ?_)))
    rw [if_pos ht]
    exact hmem
  · intro q i h
    have ht := optListTruthy_of_lt q.tags i h
    have hmem := listGroupParams_mem "@tag" (q.tags.getD []) i h
    show _ ∈ convParams q
    unfold convParams
    refine List.mem_append_left _ (List.mem_append_right _ ?_)
    rw [if_pos ht]
    exact hmem
  · intro q i h
    have ht := optListTruthy_of_lt q.senderRoles i h
    have hmem := listGroupParams_mem "@role" (q.senderRoles.getD []) i h
    show _ ∈ msgParams q
    unfold msgParams
    refine List.mem_append_left _ (List.mem_append_left _ (List.mem_append_right _ ?_))
    rw [if_pos ht]
    exact hmem

/-- Witness for C3: two conversation queries of identical shape whose filter
values differ — one carrying a quote character and SQL fragment — compile to
identical SQL text, and the quoted value reaches only the parameter list,
under its own indexed name. -/
theorem c3_query_safety_witness :
    (buildConversationsQuery
      { tenantId := some "t1", keyword := some "hello",
        participantUserIds := some ["u1", "u\x27; DROP--"] }).1 =
    (buildConversationsQuery
      { tenantId := some "other", keyword := some "x\x27y",
        participantUserIds := some ["a", "b"] }).1 ∧
    (⟨"@userId" ++ natToDecimal 1, "u\x27; DROP--"⟩ : SqlParam) ∈
      (buildConversationsQuery
        { tenantId := some "t1", keyword := some "hello",
          participantUserIds := some ["u1", "u\x27; DROP--"] }).2 :=
  ⟨c3_query_safety.2.2.1
      { tenantId := some "t1", keyword := some "hello",
        participantUserIds := some ["u1", "u\x27; DROP--"] }
      { tenantId := some "other", keyword := some "x\x27y",
        participantUserIds := some ["a", "b"] } (by decide),
    c3_query_safety.2.2.2.2.2.2.1
      { tenantId := some "t1", keyword := some "hello",
        participantUserIds := some ["u1", "u\x27; DROP--"] } 1 (by decide)⟩

/-! ## Cache lemmas (C8) -/

theorem foldl_oldest {α : Type} :
    ∀ (l : List (CacheKey × CacheEntry α)) (x0 : CacheKey × CacheEntry α),
    ∃ b, l.foldl (fun best kv =>
        match best with
        | none => some kv
        | some b => if kv.2.timestamp < b.2.timestamp then some kv else best)
      (some x0) = some b ∧ (b = x0 ∨ b ∈ l) ∧ b.2.timestamp ≤ x0.2.timestamp := by
  intro l
  induction l with
  | nil => intro x0; exact ⟨x0, rfl, Or.inl rfl, Nat.le_refl _⟩
  | cons y ys ih =>
    intro x0
    by_cases hy : y.2.timestamp < x0.2.timestamp
    · obtain ⟨b, hfold, hb, hble⟩ := ih y
      refine ⟨b, ?_, ?_, ?_⟩
      · rw [List.foldl_cons]
        simpa [hy] using hfold
      · rcases hb with hb | hb
        · exact Or.inr (hb ▸ List.mem_cons_self _ _)
        · exact Or.inr (List.mem_cons_of_mem _ hb)
      · omega
    · obtain ⟨b, hfold, hb, hble⟩ := ih x0
      refine ⟨b, ?_, ?_, hble⟩
      · rw [List.foldl_cons]
        simpa [hy] using hfold
      · rcases hb with hb | hb
        · exact Or.inl hb
        · exact Or.inr (List.mem_cons_of_mem _ hb)

theorem cacheResult_lookup_fresh {α : Type} (now : Nat) (c : SearchCache α)
    (k : CacheKey) (r : α)
    (hmiss : cacheLookup c k = none)
    (hts : ∀ kv ∈ c.entries, kv.2.timestamp ≤ now) :
    cacheLookup (cacheResult now c k r) k = some ⟨r, now⟩ := by
  have hfind : c.entries.find? (fun kv => kv.1 == k) = none := by
    unfold cacheLookup at hmiss
    cases hf : c.entries.find? (fun kv => kv.1 == k) with
    | none => rfl
    | some kv => rw [hf] at hmiss; simp at hmiss
  have hnotk : ∀ x ∈ c.entries, ¬ (x.1 == k) = true := List.find?_eq_none.1 hfind
  have hany : c.entries.any (fun kv => kv.1 == k) = false :=
    List.any_eq_false.2 hnotk
  unfold cacheResult cacheInsert
  simp only [hany, Bool.false_eq_true, if_false]
  by_cases hlen : (c.entries ++ [(k, (⟨r, now⟩ : CacheEntry α))]).length > 100
  · rw [if_pos hlen]
    have hne : c.entries ≠ [] := by
      intro hnil
      rw [hnil] at hlen
      simp at hlen
    obtain ⟨hd, tl, hcons⟩ := List.exists_cons_of_ne_nil hne
    obtain ⟨b, hbfold, hbmem, hbts⟩ := foldl_oldest tl hd
    have hbmem' : b ∈ c.entries := by
      rw [hcons]
      rcases hbmem with h | h
      · exact h ▸ List.mem_cons_self _ _
      · exact List.mem_cons_of_mem _ h
    have hbts' : b.2.timestamp ≤ now := hts b hbmem'
    have holdest : oldestCacheKey (c.entries ++ [(k, (⟨r, now⟩ : CacheEntry α))]) =
        some b.1 := by
      unfold oldestCacheKey
      rw [hcons]
      rw [show ((hd :: tl) ++ [(k, (⟨r, now⟩ : CacheEntry α))]) =
        hd :: (tl ++ [(k, (⟨r, now⟩ : CacheEntry α))]) from rfl]
      rw [List.foldl_cons, List.foldl_append, hbfold]
      have hnlt : ¬ (now < b.2.timestamp) := by omega
      simp [hnlt]
    rw [holdest]
    show cacheLookup (cacheDelete ⟨c.entries ++ [(k, (⟨r, now⟩ : CacheEntry α))]⟩ b.1)
      k = some ⟨r, now⟩
    unfold cacheDelete cacheLookup
    dsimp only
    rw [@List.eraseP_append_left _ (fun kv => kv.1 == b.1) b (by simp) c.entries
      [(k, (⟨r, now⟩ : CacheEntry α))] hbmem']
    rw [List.find?_append]
    have hnone : (c.entries.eraseP (fun kv => kv.1 == b.1)).find?
        (fun kv => kv.1 == k) = none :=
      List.find?_eq_none.2 (fun x hx => hnotk x (List.eraseP_subset _ hx))
    rw [hnone]
    simp
  · rw [if_neg hlen]
    unfold cacheLookup
    show ((c.entries ++ [(k, (⟨r, now⟩ : CacheEntry α))]).find? (fun kv => kv.1 == k)).map
      (fun kv => kv.2) = some ⟨r, now⟩
    rw [List.find?_append, hfind]
    simp

/-- C8: starting from a cache that does not hold the query (and whose
timestamps are not in the future), the first `search_conversations` call
queries the store and caches its result; a second identical call within the
TTL window returns that cached result without querying the store; a second
call at or past TTL expiry queries the store again; and any call after
`clear_cache` queries the store. -/
theorem c8_cache_correctness {α : Type} (store : SearchQuery → α)
    (st0 : SearchCache α) (q : SearchQuery) (t0 t1 : Nat)
    (hmiss : cacheLookup st0 ("conversations", q) = none)
    (hts : ∀ kv ∈ st0.entries, kv.2.timestamp ≤ t0)
    (_ht01 : t0 ≤ t1) :
    (searchConversationsCached store t0 st0 q).2.2 = true ∧
    (searchConversationsCached store t0 st0 q).1 = store q ∧
    (t1 - t0 < cacheTtl →
      (searchConversationsCached store t1
        (searchConversationsCached store t0 st0 q).2.1 q).1 =
        (searchConversationsCached store t0 st0 q).1 ∧
      (searchConversationsCached store t1
        (searchConversationsCached store t0 st0 q).2.1 q).2.2 = false) ∧
    (cacheTtl ≤ t1 - t0 →
      (searchConversationsCached store t1
        (searchConversationsCached store t0 st0 q).2.1 q).2.2 = true) ∧
    (∀ c : SearchCache α,
      (searchConversationsCached store t1 (clearCache c) q).2.2 = true) := by
  have hrun1 : searchConversationsCached store t0 st0 q =
      (store q, cacheResult t0 st0 ("conversations", q) (store q), true) := by
    unfold searchConversationsCached getCachedResult
    dsimp only
    rw [hmiss]
  have hlook := cacheResult_lookup_fresh t0 st0 ("conversations", q) (store q)
    hmiss hts
  refine ⟨by rw [hrun1], by rw [hrun1], ?_, ?_, ?_⟩
  · intro httl
    rw [hrun1]
    unfold searchConversationsCached getCachedResult
    dsimp only
    rw [hlook]
    simp [httl]
  · intro httl
    rw [hrun1]
    unfold searchConversationsCached getCachedResult
    dsimp only
    rw [hlook]
    have hge : ¬ (t1 - t0 < cacheTtl) := by omega
    simp [hge]
  · intro c
    unfold searchConversationsCached getCachedResult clearCache
    dsimp only
    rw [show cacheLookup (⟨[]⟩ : SearchCache α) ("conversations", q) = none from rfl]

/-- Witness for C8: an empty cache, a fresh query, a hit at `t1 = 100`
(within the 300-second TTL), a fresh store query at `t1 = 400`, and a fresh
store query after `clear_cache`. -/
theorem c8_cache_correctness_witness :
    ((searchConversationsCached (fun _ => (7 : Nat)) 0 ⟨[]⟩ {}).2.2 = true ∧
      (searchConversationsCached (fun _ => (7 : Nat)) 0 ⟨[]⟩ {}).1 = 7 ∧
      (100 - 0 < cacheTtl →
        (searchConversationsCached (fun _ => (7 : Nat)) 100
          (searchConversationsCached (fun _ => (7 : Nat)) 0 ⟨[]⟩ {}).2.1 {}).1 =
          (searchConversationsCached (fun _ => (7 : Nat)) 0 ⟨[]⟩ {}).1 ∧
        (searchConversationsCached (fun _ => (7 : Nat)) 100
          (searchConversationsCached (fun _ => (7 : Nat)) 0 ⟨[]⟩ {}).2.1 {}).2.2 =
          false) ∧
      (cacheTtl ≤ 100 - 0 →
        (searchConversationsCached (fun _ => (7 : Nat)) 100
          (searchConversationsCached (fun _ => (7 : Nat)) 0 ⟨[]⟩ {}).2.1 {}).2.2 =
          true) ∧
      (∀ c : SearchCache Nat,
        (searchConversationsCached (fun _ => (7 : Nat)) 100 (clearCache c) {}).2.2 =
          true)) ∧
    (cacheTtl ≤ 400 - 0 →
      (searchConversationsCached (fun _ => (7 : Nat)) 400
        (searchConversationsCached (fun _ => (7 : Nat)) 0 ⟨[]⟩ {}).2.1 {}).2.2 =
        true) :=
  ⟨c8_cache_correctness (fun _ => (7 : Nat)) ⟨[]⟩ {} 0 100 rfl
      (by intro kv hkv; cases hkv) (by omega),
   (c8_cache_correctness (fun _ => (7 : Nat)) ⟨[]⟩ {} 0 400 rfl
      (by intro kv hkv; cases hkv) (by omega)).2.2.2.1⟩
